import Mathlib

/-!
# `oneplusone.cpp`: neighbour generation for the (1+1) evolutionary algorithm

A shallow embedding of `calc_weights`, `new_param_value`,
`is_random_event_happens` and `oneplusone`, and the properties of them that
the specification states.

Conventions of the embedding.

* `unsigned` is a 32-bit word: a natural number below `2 ^ 32`, with
  subtraction and increment taken modulo `2 ^ 32`.  `int` is a 32-bit
  two's complement integer, an `Int` in the range of `is_int`; the
  conversions between the two are `to_unsigned` and `to_int`.
* An `assert` that does not hold and an operation whose behaviour C++ leaves
  undefined end the run with a `Failure` that records the source line.
* `std::vector` is a `List`; `std::set<point_t>` is the list of its elements,
  kept free of duplicates, so that its size is the length of the list.
* `std::mt19937` is a stream of draws (`RandGen`); every statement below is
  about all streams.
-/

namespace OnePlusOne

/-! ## Failures -/

/-- How a call ends without a result: a failed `assert`, or an operation on
which the C++ standard puts no requirement (an index outside a vector, a
floating value that does not fit the integer type it is converted to).  The
number is the line of `oneplusone.cpp` where it happens. -/
inductive Failure where
  | assertion (line : Nat)
  | undefined (line : Nat)
  deriving DecidableEq, Repr

deriving instance DecidableEq for Except

/-- What a call of `oneplusone` has come to after a bounded number of
iterations of its `while` loop. -/
inductive Outcome (α : Type) where
  | returned (a : α)
  | failed (f : Failure)
  | running
  deriving DecidableEq, Repr

/-- The statement `assert(c)` of source line `line`. -/
def assert (line : Nat) (c : Bool) : Except Failure Unit :=
  if c then .ok () else .error (.assertion line)

/-- Reading `v[k]` of a `std::vector`: no requirement when `k` is not an index
of `v`. -/
def vector_get {α : Type} (line : Nat) (v : List α) (k : Nat) : Except Failure α :=
  match v[k]? with
  | some x => .ok x
  | none => .error (.undefined line)

/-- The assignment `v[k] = x` of a `std::vector`: no requirement when `k` is
not an index of `v`. -/
def vector_set {α : Type} (line : Nat) (v : List α) (k : Nat) (x : α) :
    Except Failure (List α) :=
  if k < v.length then .ok (v.set k x) else .error (.undefined line)

/-- The loop `for (unsigned i = first; i < bound; ++i) body`, given the number
`todo = bound - first` of values `i` takes. -/
def for_loop {σ : Type} (body : Nat → σ → Except Failure σ) :
    Nat → Nat → σ → Except Failure σ
  | 0, _, s => .ok s
  | todo + 1, i, s =>
    match body i s with
    | .ok s1 => for_loop body todo (i + 1) s1
    | .error f => .error f

/-! ## Machine arithmetic -/

/-- The arithmetic in which the text of `calc_weights` is read.  `uint32` is
the C++ function: `unsigned` is a 32-bit word.  `exact` is not the program: it
is the Python reference in the comment above the function (source lines 31 to
41), the same loops over the natural numbers, and says what the weights are
meant to be. -/
inductive Arith where
  | exact
  | uint32
  deriving DecidableEq, Repr

/-- The difference `a - b` of two `unsigned` values. -/
def Arith.sub : Arith → Nat → Nat → Nat
  | .exact, a, b => a - b
  | .uint32, a, b => (a % 2 ^ 32 + (2 ^ 32 - b % 2 ^ 32)) % 2 ^ 32

/-- The value `a + 1` of an `unsigned`. -/
def Arith.succ : Arith → Nat → Nat
  | .exact, a => a + 1
  | .uint32, a => (a + 1) % 2 ^ 32

/-- The value of `std::pow(2, e)` once assigned to an `unsigned`.  The power
is a `double`; its conversion to a 32-bit `unsigned` is defined only when the
value is below `2 ^ 32`.  In the Python reference `pow(2, e)` is the exact
power. -/
def Arith.pow2 : Arith → Nat → Nat → Except Failure Nat
  | .exact, _, e => .ok (2 ^ e)
  | .uint32, line, e => if e < 32 then .ok (2 ^ e) else .error (.undefined line)

/-- The non-negative `double` values of the program, each the quotient of two
natural numbers, kept exact: `num / den`, with `den = 0` for the infinite
quotient of a division by zero. -/
structure Fraction where
  num : Nat
  den : Nat
  deriving DecidableEq, Repr

/-- The order of two `double` values: `a / b < c / d` when `a * d < c * b`. -/
instance : LT Fraction := ⟨fun a b => a.num * b.den < b.num * a.den⟩

instance (a b : Fraction) : Decidable (a < b) :=
  inferInstanceAs (Decidable (a.num * b.den < b.num * a.den))

/-- The conversion `(double)n` of an `unsigned`. -/
def Fraction.of_unsigned (n : Nat) : Fraction := ⟨n, 1⟩

/-- The quotient `a / b` of two `double` values. -/
def Fraction.div (a b : Fraction) : Fraction := ⟨a.num * b.den, a.den * b.num⟩

/-- Whether `x` is a value of the type `int`. -/
def is_int (x : Int) : Prop := -2147483648 ≤ x ∧ x < 2147483648

instance (x : Int) : Decidable (is_int x) := by
  unfold is_int
  exact inferInstance

/-- The conversion of an `int` to `unsigned`: the value modulo `2 ^ 32`. -/
def to_unsigned (x : Int) : Nat := (x % 4294967296).toNat

/-- The conversion of an `unsigned` to `int`. -/
def to_int (u : Nat) : Int :=
  if u < 2147483648 then (u : Int) else (u : Int) - 4294967296

/-! ## `calc_weights` -/

/-- The function `calc_weights` (source lines 42 to 55). -/
def calc_weights (A : Arith) (indx arraysize : Nat) : Except Failure (List Nat) :=
  let weights : List Nat := List.replicate arraysize 0
  let max_distance_to_left := indx
  let max_distance_to_right := A.sub (A.sub arraysize indx) 1
  let max_distance := max max_distance_to_left max_distance_to_right
  match for_loop (fun i w =>
      match A.pow2 48 (A.sub (A.sub max_distance 1) i) with
      | .ok x => vector_set 48 w (A.sub (A.sub indx i) 1) x
      | .error f => .error f) (indx - 0) 0 weights with
  | .error f => .error f
  | .ok weights =>
    match for_loop (fun i w =>
        match A.pow2 51 (A.sub (A.sub max_distance 1) (A.sub (A.sub i indx) 1)) with
        | .ok x => vector_set 51 w i x
        | .error f => .error f) (arraysize - A.succ indx) (A.succ indx) weights with
    | .error f => .error f
    | .ok weights =>
      match vector_get 53 weights indx with
      | .error f => .error f
      | .ok x => if x = 0 then .ok weights else .error (.assertion 53)

/-! ## The random source -/

/-- The state of the generator `std::mt19937`: the draws still to come.  Each
use of a distribution takes the first of them. -/
abbrev RandGen : Type := Nat → Nat

/-- The generator after one draw. -/
def RandGen.advance (rand_gen : RandGen) : RandGen := fun k => rand_gen (k + 1)

/-- One draw `dist(rand_gen)` of
`std::discrete_distribution<> dist(weights.begin(), weights.end())`.  The
library requires a positive sum of the weights.  The draw is an index of
`weights`; which one is left to the random source (an index of weight zero has
probability zero, which the library does not turn into "never"). -/
def discrete_distribution (line : Nat) (weights : List Nat) (rand_gen : RandGen) :
    Except Failure (Nat × RandGen) :=
  if weights.sum = 0 then .error (.undefined line)
  else .ok (rand_gen 0 % weights.length, rand_gen.advance)

/-- One draw of `std::uniform_real_distribution<double> dist{0.0, 1.0}`: a
number `d` with `0 ≤ d < 1`. -/
def uniform_real_distribution (rand_gen : RandGen) : Fraction × RandGen :=
  (⟨rand_gen 0 % 2 ^ 53, 2 ^ 53⟩, rand_gen.advance)

/-! ## `new_param_value` -/

/-- The template `eqp`: equality of two values. -/
def eqp {X : Type} [DecidableEq X] (lhs rhs : X) : Bool := decide (lhs = rhs)

/-- One of the assertions `assert(eqp(calc_weights(indx, arraysize), expected))`
of source lines 60 to 68. -/
def assert_calc_weights (line indx arraysize : Nat) (expected : List Nat) :
    Except Failure Unit :=
  match calc_weights .uint32 indx arraysize with
  | .error f => .error f
  | .ok weights => assert line (eqp weights expected)

/-- The function `new_param_value` (source lines 57 to 96).  `current_value`
and the result are `unsigned`; the entries of `param` are `int` and are
converted to `unsigned` where the program compares or copies them. -/
def new_param_value (current_value : Nat) (param : List Int) (rand_gen : RandGen) :
    Except Failure (Nat × RandGen) := do
  assert_calc_weights 60 0 2 [0, 1]
  assert_calc_weights 61 1 2 [1, 0]
  assert_calc_weights 62 0 3 [0, 2, 1]
  assert_calc_weights 63 1 3 [1, 0, 1]
  assert_calc_weights 64 2 3 [1, 2, 0]
  assert_calc_weights 65 0 4 [0, 4, 2, 1]
  assert_calc_weights 66 1 4 [2, 0, 2, 1]
  assert_calc_weights 67 2 4 [1, 2, 0, 2]
  assert_calc_weights 68 3 4 [1, 2, 4, 0]
  let it := param.findIdx (fun x => decide (to_unsigned x = current_value))
  assert 71 (decide (it ≠ param.length))
  let indx := it % 2 ^ 32
  let weights ← calc_weights .uint32 indx (param.length % 2 ^ 32)
  let (new_index, rand_gen) ← discrete_distribution 77 weights rand_gen
  assert 87 (decide (new_index ≠ indx))
  let new_val ← (vector_get 88 param new_index).map to_unsigned
  assert 94 (decide (new_val ≠ current_value))
  return (new_val, rand_gen)

/-! ## `is_random_event_happens` and `oneplusone` -/

/-- The function `is_random_event_happens` (source lines 99 to 106). -/
def is_random_event_happens (rand_gen : RandGen) (probability : Fraction) :
    Except Failure (Bool × RandGen) := do
  assert 100 (decide (Fraction.of_unsigned 0 < probability ∧
    probability < Fraction.of_unsigned 1))
  let (d, rand_gen) := uniform_real_distribution rand_gen
  if d < probability then return (true, rand_gen)
  return (false, rand_gen)

/-- The first `for` loop of the body of `oneplusone` (source lines 127 to 133):
the indices chosen for a change, each with probability `1 / params_num`. -/
def select_params (params_num : Nat) (rand_gen : RandGen) :
    Except Failure (List Nat × RandGen) :=
  for_loop (fun i s =>
      match is_random_event_happens s.2
          ((Fraction.of_unsigned 1).div (Fraction.of_unsigned params_num)) with
      | .error f => .error f
      | .ok (true, rand_gen) => .ok (s.1 ++ [i], rand_gen)
      | .ok (false, rand_gen) => .ok (s.1, rand_gen))
    (params_num - 0) 0 ([], rand_gen)

/-- The second `for` loop of the body of `oneplusone` (source lines 136 to
139): every chosen index gets a new value, drawn for the value of the start
point at that index. -/
def change_params (start_point : List Int) (parameters : List (List Int)) :
    List Nat → List Int → RandGen → Except Failure (List Int × RandGen)
  | [], new_point, rand_gen => .ok (new_point, rand_gen)
  | indx :: rest, new_point, rand_gen =>
    match vector_get 138 start_point indx with
    | .error f => .error f
    | .ok current =>
      match vector_get 138 parameters indx with
      | .error f => .error f
      | .ok param =>
        match new_param_value (to_unsigned current) param rand_gen with
        | .error f => .error f
        | .ok (new_val, rand_gen) =>
          match vector_set 138 new_point indx (to_int new_val) with
          | .error f => .error f
          | .ok new_point => change_params start_point parameters rest new_point rand_gen

/-- The `while` loop of `oneplusone` (source lines 125 to 144), run for at most
`fuel` iterations. -/
def oneplusone_loop (start_point : List Int) (parameters : List (List Int))
    (points_to_gen params_num : Nat) :
    Nat → List (List Int) → RandGen → Outcome (List (List Int))
  | 0, points, _ =>
    if points.length < points_to_gen then .running else .returned points
  | fuel + 1, points, rand_gen =>
    if points.length < points_to_gen then
      match select_params params_num rand_gen with
      | .error f => .failed f
      | .ok (params_indicies_to_change, rand_gen) =>
        if params_indicies_to_change.isEmpty then
          oneplusone_loop start_point parameters points_to_gen params_num fuel points rand_gen
        else
          match change_params start_point parameters params_indicies_to_change
              start_point rand_gen with
          | .error f => .failed f
          | .ok (new_point, rand_gen) =>
            if points.count new_point = 0 then
              oneplusone_loop start_point parameters points_to_gen params_num fuel
                (points ++ [new_point]) rand_gen
            else
              oneplusone_loop start_point parameters points_to_gen params_num fuel
                points rand_gen
    else .returned points

/-- The function `oneplusone` (source lines 112 to 148), its loop run for at
most `fuel` iterations.  `mt19937` is the seeding of the generator: the state
`std::mt19937 rand_gen{iteration}` starts in. -/
def oneplusone (mt19937 : Nat → RandGen) (fuel : Nat) (start_point : List Int)
    (parameters : List (List Int)) (points_to_gen iteration : Nat) :
    Outcome (List (List Int)) :=
  if parameters.isEmpty then .failed (.assertion 116)
  else if start_point.isEmpty then .failed (.assertion 117)
  else if points_to_gen = 0 then .failed (.assertion 118)
  else
    oneplusone_loop start_point parameters points_to_gen (parameters.length % 2 ^ 32)
      fuel [] (mt19937 iteration)

/-- One pass through the body of the `while` loop of `oneplusone` (source lines
126 to 143): the set of points and the generator after it. -/
def loop_body (start_point : List Int) (parameters : List (List Int)) (params_num : Nat)
    (points : List (List Int)) (rand_gen : RandGen) :
    Except Failure (List (List Int) × RandGen) :=
  match select_params params_num rand_gen with
  | .error f => .error f
  | .ok (params_indicies_to_change, rand_gen) =>
    if params_indicies_to_change.isEmpty then .ok (points, rand_gen)
    else
      match change_params start_point parameters params_indicies_to_change
          start_point rand_gen with
      | .error f => .error f
      | .ok (new_point, rand_gen) =>
        if points.count new_point = 0 then .ok (points ++ [new_point], rand_gen)
        else .ok (points, rand_gen)

/-! ## Auxiliary notions of the proofs -/

/-- The weight the specification gives position `j` of a domain of `n` values
whose current value is at position `i`. -/
def spec_weight (i n j : Nat) : Nat :=
  if j = i then 0 else 2 ^ (max i (n - i - 1) - (if j < i then i - j else j - i))

/-- The weights after the first loop of `calc_weights` has run for `i = 0, …, k - 1`. -/
def weights_left (i n k : Nat) : List Nat :=
  (List.range n).map (fun j => if i - k ≤ j ∧ j < i then spec_weight i n j else 0)

/-- The weights once the second loop of `calc_weights` has reached `i = k`. -/
def weights_right (i n k : Nat) : List Nat :=
  (List.range n).map (fun j => if j < k then spec_weight i n j else 0)

/-- A value `y` that `new_param_value` has drawn for position `j`: for the
value of the start point at `j` and the domain of `j`. -/
def Drawn (start_point : List Int) (parameters : List (List Int)) (j : Nat) (y : Int) :
    Prop :=
  ∃ (current : Int) (param : List Int) (rand_gen rand_gen1 : RandGen) (new_val : Nat),
    start_point[j]? = some current ∧ parameters[j]? = some param ∧
    new_param_value (to_unsigned current) param rand_gen = .ok (new_val, rand_gen1) ∧
    y = to_int new_val

/-- What holds of every candidate point that the body of the loop of
`oneplusone` completes. -/
def Candidate (start_point : List Int) (parameters : List (List Int)) (p : List Int) :
    Prop :=
  p.length = start_point.length ∧
  (∃ j, ∃ y, p[j]? = some y ∧ Drawn start_point parameters j y) ∧
  (∀ j, p[j]? = start_point[j]? ∨ ∃ y, p[j]? = some y ∧ Drawn start_point parameters j y) ∧
  (∀ j, parameters.length ≤ j → p[j]? = start_point[j]?)

/-- The outcome with `f` applied to the returned value. -/
def Outcome.map {α β : Type} (f : α → β) : Outcome α → Outcome β
  | .returned a => .returned (f a)
  | .failed e => .failed e
  | .running => .running

/-- The points that the specification calls reachable from the start point:
every position holds the value of the start point or an entry of its domain,
and the point is not the start point itself. -/
def reachable_points (start_point : List Int) (parameters : List (List Int)) :
    List (List Int) :=
  ((List.zipWith (fun current param => current :: param) start_point parameters).sections).filter
    (fun p => decide (p ≠ start_point))

/-! ## Lemmas -/

theorem Arith.sub_eq (A : Arith) (a b : Nat) (hb : b ≤ a)
    (ha : A = .uint32 → a < 2 ^ 32) : A.sub a b = a - b := by
  cases A
  · rfl
  · have h := ha rfl
    simp only [Arith.sub]
    omega

theorem Arith.succ_eq (A : Arith) (a : Nat) (ha : A = .uint32 → a + 1 < 2 ^ 32) :
    A.succ a = a + 1 := by
  cases A
  · rfl
  · have h := ha rfl
    simp only [Arith.succ]
    omega

theorem Arith.pow2_eq (A : Arith) (line e : Nat) (he : A = .uint32 → e < 32) :
    A.pow2 line e = .ok (2 ^ e) := by
  cases A
  · rfl
  · simp [Arith.pow2, he rfl]

theorem for_loop_invariant {σ : Type} (body : Nat → σ → Except Failure σ)
    (P : Nat → σ → Prop) (todo : Nat) :
    ∀ (first : Nat) (s : σ), P first s →
      (∀ k t, first ≤ k → k < first + todo → P k t →
        ∃ t1, body k t = .ok t1 ∧ P (k + 1) t1) →
      ∃ s1, for_loop body todo first s = .ok s1 ∧ P (first + todo) s1 := by
  induction todo with
  | zero =>
    intro first s h0 _
    exact ⟨s, rfl, by simpa using h0⟩
  | succ todo ih =>
    intro first s h0 hstep
    obtain ⟨t1, hb, hP⟩ := hstep first s (le_refl _) (by omega) h0
    obtain ⟨s1, hs1, hP1⟩ := ih (first + 1) t1 hP (fun k t hk1 hk2 hPk =>
      hstep k t (by omega) (by omega) hPk)
    refine ⟨s1, ?_, ?_⟩
    · simp only [for_loop, hb, hs1]
    · have : first + (todo + 1) = first + 1 + todo := by omega
      rw [this]; exact hP1

theorem vector_set_eq {α : Type} (line : Nat) (v : List α) (k : Nat) (x : α)
    (hk : k < v.length) : vector_set line v k x = .ok (v.set k x) := by
  simp [vector_set, hk]

theorem vector_get_eq {α : Type} (line : Nat) (v : List α) (k : Nat) (hk : k < v.length) :
    vector_get line v k = .ok v[k] := by
  simp [vector_get, List.getElem?_eq_getElem hk]

theorem weights_left_step (i n k : Nat) (hi : i < n) (hk : k < i) :
    (weights_left i n k).set (i - k - 1) (2 ^ (max i (n - i - 1) - 1 - k)) =
      weights_left i n (k + 1) := by
  apply List.ext_getElem
  · simp [weights_left]
  · intro j h1 h2
    simp only [weights_left, List.length_map, List.length_range] at h2
    simp only [weights_left, List.getElem_set, List.getElem_map, List.getElem_range]
    by_cases hj : i - k - 1 = j
    · have h3 : i - (k + 1) ≤ j ∧ j < i := by omega
      have h4 : j ≠ i := by omega
      have h5 : j < i := by omega
      simp only [hj, if_true, h3, and_self, spec_weight, h4, if_false, h5]
      congr 1
      omega
    · simp only [hj, if_false]
      by_cases h6 : i - k ≤ j ∧ j < i
      · have h7 : i - (k + 1) ≤ j ∧ j < i := by omega
        simp only [h6, h7, and_self, if_true]
      · have h7 : ¬ (i - (k + 1) ≤ j ∧ j < i) := by omega
        simp only [h6, h7, if_false]

theorem weights_right_step (i n k : Nat) (hk : i < k) (hkn : k < n) :
    (weights_right i n k).set k (2 ^ (max i (n - i - 1) - 1 - (k - i - 1))) =
      weights_right i n (k + 1) := by
  apply List.ext_getElem
  · simp [weights_right]
  · intro j h1 h2
    simp only [weights_right, List.length_map, List.length_range] at h2
    simp only [weights_right, List.getElem_set, List.getElem_map, List.getElem_range]
    by_cases hj : k = j
    · have h3 : j < j + 1 := by omega
      have h4 : j ≠ i := by omega
      have h5 : ¬ j < i := by omega
      subst hj
      simp only [if_true, h3, spec_weight, h4, if_false, h5]
      congr 1
      omega
    · simp only [hj, if_false]
      by_cases h6 : j < k
      · have h7 : j < k + 1 := by omega
        simp only [h6, h7, if_true]
      · have h7 : ¬ j < k + 1 := by omega
        simp only [h6, h7, if_false]

theorem weights_left_zero (i n : Nat) : weights_left i n 0 = List.replicate n 0 := by
  apply List.ext_getElem
  · simp [weights_left]
  · intro j h1 h2
    have : ¬ (i ≤ j ∧ j < i) := by omega
    simp [weights_left, this]

theorem weights_left_right (i n : Nat) : weights_left i n i = weights_right i n (i + 1) := by
  apply List.ext_getElem
  · simp [weights_left, weights_right]
  · intro j h1 h2
    simp only [weights_left, weights_right, List.getElem_map, List.getElem_range]
    by_cases hj : j < i
    · have : j < i + 1 := by omega
      simp [hj, this]
    · by_cases hji : j = i
      · subst hji
        simp [spec_weight]
      · have : ¬ j < i + 1 := by omega
        simp [hj, this]

theorem weights_right_end (i n : Nat) :
    weights_right i n n = (List.range n).map (spec_weight i n) := by
  apply List.ext_getElem
  · simp [weights_right]
  · intro j h1 h2
    simp only [weights_right, List.length_map, List.length_range] at h2
    simp [weights_right, h2]

/-- In the exact reading, and on 32-bit words as long as the distances fit,
`calc_weights` returns the weights of the specification. -/
theorem calc_weights_eq (A : Arith) (i n : Nat) (hi : i < n)
    (hfit : A = .uint32 → n < 2 ^ 32 ∧ max i (n - i - 1) ≤ 32) :
    calc_weights A i n = .ok ((List.range n).map (spec_weight i n)) := by
  have hn : A = .uint32 → n < 2 ^ 32 := fun h => (hfit h).1
  have hM : A = .uint32 → max i (n - i - 1) ≤ 32 := fun h => (hfit h).2
  have hsub1 : A.sub n i = n - i := A.sub_eq n i (by omega) hn
  have hsub2 : A.sub (n - i) 1 = n - i - 1 :=
    A.sub_eq (n - i) 1 (by omega) (fun h => by have := hn h; omega)
  have hsucc : A.succ i = i + 1 := A.succ_eq i (fun h => by have := hn h; omega)
  obtain ⟨w1, hw1, hP1⟩ := for_loop_invariant
    (fun k w =>
      match A.pow2 48 (A.sub (A.sub (max i (n - i - 1)) 1) k) with
      | .ok x => vector_set 48 w (A.sub (A.sub i k) 1) x
      | .error f => .error f)
    (fun k w => w = weights_left i n k) i 0 (List.replicate n 0)
    (weights_left_zero i n).symm
    (by
      intro k t _ hk hP
      have hk : k < i := by omega
      subst hP
      have e1 : A.sub (max i (n - i - 1)) 1 = max i (n - i - 1) - 1 :=
        A.sub_eq _ 1 (by omega) (fun h => by have := hn h; omega)
      have e2 : A.sub (max i (n - i - 1) - 1) k = max i (n - i - 1) - 1 - k :=
        A.sub_eq _ k (by omega) (fun h => by have := hn h; omega)
      have e3 : A.sub i k = i - k := A.sub_eq i k (by omega) (fun h => by have := hn h; omega)
      have e4 : A.sub (i - k) 1 = i - k - 1 :=
        A.sub_eq _ 1 (by omega) (fun h => by have := hn h; omega)
      have e5 : A.pow2 48 (max i (n - i - 1) - 1 - k) = .ok (2 ^ (max i (n - i - 1) - 1 - k)) :=
        A.pow2_eq 48 _ (fun h => by have := hM h; omega)
      refine ⟨weights_left i n (k + 1), ?_, rfl⟩
      simp only [e1, e2, e3, e4, e5]
      rw [vector_set_eq _ _ _ _ (by simp [weights_left]; omega), weights_left_step i n k hi hk])
  obtain ⟨w2, hw2, hP2⟩ := for_loop_invariant
    (fun k w =>
      match A.pow2 51 (A.sub (A.sub (max i (n - i - 1)) 1) (A.sub (A.sub k i) 1)) with
      | .ok x => vector_set 51 w k x
      | .error f => .error f)
    (fun k w => w = weights_right i n k) (n - (i + 1)) (i + 1) (weights_left i n i)
    (weights_left_right i n)
    (by
      intro k t hk1 hk2 hP
      have hk : i < k := by omega
      have hkn : k < n := by omega
      subst hP
      have e1 : A.sub (max i (n - i - 1)) 1 = max i (n - i - 1) - 1 :=
        A.sub_eq _ 1 (by omega) (fun h => by have := hn h; omega)
      have e3 : A.sub k i = k - i := A.sub_eq k i (by omega) (fun h => by have := hn h; omega)
      have e4 : A.sub (k - i) 1 = k - i - 1 :=
        A.sub_eq _ 1 (by omega) (fun h => by have := hn h; omega)
      have e2 : A.sub (max i (n - i - 1) - 1) (k - i - 1) = max i (n - i - 1) - 1 - (k - i - 1) :=
        A.sub_eq _ _ (by omega) (fun h => by have := hn h; omega)
      have e5 : A.pow2 51 (max i (n - i - 1) - 1 - (k - i - 1)) =
          .ok (2 ^ (max i (n - i - 1) - 1 - (k - i - 1))) :=
        A.pow2_eq 51 _ (fun h => by have := hM h; omega)
      refine ⟨weights_right i n (k + 1), ?_, rfl⟩
      simp only [e1, e2, e3, e4, e5]
      rw [vector_set_eq _ _ _ _ (by simp [weights_right]; omega), weights_right_step i n k hk hkn])
  have hend : i + 1 + (n - (i + 1)) = n := by omega
  simp only [Nat.zero_add] at hP1
  rw [hend] at hP2
  subst hP1 hP2
  have hget : vector_get 53 (weights_right i n n) i = .ok 0 := by
    rw [vector_get_eq _ _ _ (by simp [weights_right]; omega)]
    simp [weights_right, spec_weight]
  simp only [calc_weights, hsub1, hsub2, hsucc, Nat.sub_zero, hw1, hw2, hget, if_true]
  rw [weights_right_end]

theorem assert_calc_weights_golden :
    assert_calc_weights 60 0 2 [0, 1] = .ok () ∧
    assert_calc_weights 61 1 2 [1, 0] = .ok () ∧
    assert_calc_weights 62 0 3 [0, 2, 1] = .ok () ∧
    assert_calc_weights 63 1 3 [1, 0, 1] = .ok () ∧
    assert_calc_weights 64 2 3 [1, 2, 0] = .ok () ∧
    assert_calc_weights 65 0 4 [0, 4, 2, 1] = .ok () ∧
    assert_calc_weights 66 1 4 [2, 0, 2, 1] = .ok () ∧
    assert_calc_weights 67 2 4 [1, 2, 0, 2] = .ok () ∧
    assert_calc_weights 68 3 4 [1, 2, 4, 0] = .ok () := by
  decide

/-- The part of `new_param_value` after the nine assertions on `calc_weights`
(source lines 70 to 95). -/
theorem new_param_value_eq (current_value : Nat) (param : List Int) (rand_gen : RandGen) :
    new_param_value current_value param rand_gen =
      (do
        let it := param.findIdx (fun x => decide (to_unsigned x = current_value))
        assert 71 (decide (it ≠ param.length))
        let indx := it % 2 ^ 32
        let weights ← calc_weights .uint32 indx (param.length % 2 ^ 32)
        let (new_index, rand_gen) ← discrete_distribution 77 weights rand_gen
        assert 87 (decide (new_index ≠ indx))
        let new_val ← (vector_get 88 param new_index).map to_unsigned
        assert 94 (decide (new_val ≠ current_value))
        return (new_val, rand_gen)) := by
  obtain ⟨h0, h1, h2, h3, h4, h5, h6, h7, h8⟩ := assert_calc_weights_golden
  simp only [new_param_value, h0, h1, h2, h3, h4, h5, h6, h7, h8]
  rfl

theorem new_param_value_ok_iff (current_value : Nat) (param : List Int)
    (rand_gen rand_gen1 : RandGen) (v : Nat) :
    new_param_value current_value param rand_gen = .ok (v, rand_gen1) ↔
      ∃ weights x,
        param.findIdx (fun x => decide (to_unsigned x = current_value)) ≠ param.length ∧
        calc_weights .uint32
          (param.findIdx (fun x => decide (to_unsigned x = current_value)) % 2 ^ 32)
          (param.length % 2 ^ 32) = .ok weights ∧
        weights.sum ≠ 0 ∧
        rand_gen 0 % weights.length ≠
          param.findIdx (fun x => decide (to_unsigned x = current_value)) % 2 ^ 32 ∧
        param[rand_gen 0 % weights.length]? = some x ∧
        to_unsigned x = v ∧ v ≠ current_value ∧ rand_gen1 = rand_gen.advance := by
  rw [new_param_value_eq]
  generalize param.findIdx (fun x => decide (to_unsigned x = current_value)) = it
  simp only [Nat.reducePow]
  by_cases h1 : it = param.length
  · simp [assert, h1, bind, Except.bind]
  cases hcw : calc_weights .uint32 (it % 4294967296) (param.length % 4294967296) with
  | error f => simp [assert, h1, bind, Except.bind]
  | ok weights =>
    by_cases hs : weights.sum = 0
    · simp [assert, h1, bind, Except.bind, discrete_distribution, hs]
    by_cases hk : rand_gen 0 % weights.length = it % 4294967296
    · simp [assert, h1, bind, Except.bind, discrete_distribution, hs, hk]
    cases hx : param[rand_gen 0 % weights.length]? with
    | none =>
      simp [assert, h1, bind, Except.bind, discrete_distribution, hs, hk, vector_get, hx,
        Except.map]
    | some x =>
      by_cases hv : to_unsigned x = current_value
      · simp [assert, h1, bind, Except.bind, discrete_distribution, hs, hk, vector_get, hx,
          Except.map, hv]
        intro h2 h3
        omega
      · simp [assert, h1, bind, Except.bind, discrete_distribution, hs, hk, vector_get, hx,
          Except.map, hv, pure, Except.pure]
        intro h2
        subst h2
        constructor
        · intro h3
          exact ⟨hv, h3.symm⟩
        · intro h3
          exact h3.2.symm

theorem to_unsigned_lt (x : Int) : to_unsigned x < 4294967296 := by
  unfold to_unsigned
  omega

theorem to_int_to_unsigned (x : Int) (hx : is_int x) : to_int (to_unsigned x) = x := by
  unfold is_int at hx
  unfold to_int to_unsigned
  split <;> omega

theorem to_unsigned_to_int (u : Nat) (hu : u < 4294967296) : to_unsigned (to_int u) = u := by
  unfold to_int to_unsigned
  split <;> omega

theorem except_error_of_not_ok {α : Type} (r : Except Failure α) (h : ∀ a, r ≠ .ok a) :
    ∃ f, r = .error f := by
  cases r with
  | error f => exact ⟨f, rfl⟩
  | ok a => exact absurd rfl (h a)

theorem vector_get_ok {α : Type} (line : Nat) (v : List α) (k : Nat) (x : α)
    (h : vector_get line v k = .ok x) : v[k]? = some x := by
  unfold vector_get at h
  split at h
  · next y hy => cases h; exact hy
  · cases h

theorem vector_set_ok {α : Type} (line : Nat) (v w : List α) (k : Nat) (x : α)
    (h : vector_set line v k x = .ok w) : k < v.length ∧ w = v.set k x := by
  unfold vector_set at h
  split at h
  · next hk => cases h; exact ⟨hk, rfl⟩
  · cases h

theorem change_params_ok (start_point : List Int) (parameters : List (List Int)) :
    ∀ (indices : List Nat) (new_point : List Int) (rand_gen : RandGen)
      (result : List Int) (rand_gen1 : RandGen),
      change_params start_point parameters indices new_point rand_gen =
        .ok (result, rand_gen1) →
      result.length = new_point.length ∧
      (∀ j, j ∉ indices → result[j]? = new_point[j]?) ∧
      (∀ j, j ∈ indices → ∃ y, result[j]? = some y ∧ Drawn start_point parameters j y) := by
  intro indices
  induction indices with
  | nil =>
    intro new_point rand_gen result rand_gen1 h
    simp only [change_params, Except.ok.injEq, Prod.mk.injEq] at h
    obtain ⟨rfl, _⟩ := h
    exact ⟨rfl, fun _ _ => rfl, fun j hj => absurd hj (List.not_mem_nil j)⟩
  | cons indx rest ih =>
    intro new_point rand_gen result rand_gen1 h
    unfold change_params at h
    cases h1 : vector_get 138 start_point indx with
    | error f => simp [h1] at h
    | ok current =>
      cases h2 : vector_get 138 parameters indx with
      | error f => simp [h1, h2] at h
      | ok param =>
        cases h3 : new_param_value (to_unsigned current) param rand_gen with
        | error f => simp [h1, h2, h3] at h
        | ok r =>
          obtain ⟨new_val, rand_gen2⟩ := r
          cases h4 : vector_set 138 new_point indx (to_int new_val) with
          | error f => simp [h1, h2, h3, h4] at h
          | ok new_point1 =>
            simp only [h1, h2, h3, h4] at h
            obtain ⟨hlen, hout, hin⟩ := ih new_point1 rand_gen2 result rand_gen1 h
            obtain ⟨hk, hset⟩ := vector_set_ok _ _ _ _ _ h4
            subst hset
            refine ⟨by rw [hlen, List.length_set], ?_, ?_⟩
            · intro j hj
              have hj1 : j ≠ indx := fun e => hj (e ▸ List.mem_cons_self _ _)
              have hj2 : j ∉ rest := fun e => hj (List.mem_cons_of_mem _ e)
              rw [hout j hj2, List.getElem?_set]
              simp [Ne.symm hj1]
            · intro j hj
              by_cases hjr : j ∈ rest
              · exact hin j hjr
              · have hji : j = indx := by
                  rcases List.mem_cons.1 hj with e | e
                  · exact e
                  · exact absurd e hjr
                subst hji
                refine ⟨to_int new_val, ?_, current, param, rand_gen, rand_gen2, new_val,
                  vector_get_ok _ _ _ _ h1, vector_get_ok _ _ _ _ h2, h3, rfl⟩
                rw [hout j hjr, List.getElem?_set]
                simp [hk]

/-- A drawn value is not the value of the start point. -/
theorem Drawn.ne_start (start_point : List Int) (parameters : List (List Int)) (j : Nat)
    (y : Int) (h : Drawn start_point parameters j y) : start_point[j]? ≠ some y := by
  obtain ⟨current, param, rand_gen, rand_gen1, new_val, h1, _, h3, h4⟩ := h
  obtain ⟨weights, x, _, _, _, _, _, hxv, hv, _⟩ :=
    (new_param_value_ok_iff _ _ _ _ _).1 h3
  intro e
  rw [h1] at e
  have e1 : current = y := by simpa using e
  apply hv
  rw [e1, h4, to_unsigned_to_int new_val (by rw [← hxv]; exact to_unsigned_lt x)]

/-- A drawn value is an entry of the domain of its position, when the entries
of that domain are values of the type `int`. -/
theorem Drawn.mem_domain (start_point : List Int) (parameters : List (List Int)) (j : Nat)
    (y : Int) (h : Drawn start_point parameters j y) :
    ∃ param, parameters[j]? = some param ∧ ((∀ x ∈ param, is_int x) → y ∈ param) := by
  obtain ⟨current, param, rand_gen, rand_gen1, new_val, _, h2, h3, h4⟩ := h
  obtain ⟨weights, x, _, _, _, _, hx, hxv, _, _⟩ :=
    (new_param_value_ok_iff _ _ _ _ _).1 h3
  have hmem : x ∈ param := List.mem_iff_getElem?.2 ⟨_, hx⟩
  refine ⟨param, h2, fun hint => ?_⟩
  rw [h4, ← hxv, to_int_to_unsigned x (hint x hmem)]
  exact hmem

theorem Drawn.lt_length (start_point : List Int) (parameters : List (List Int)) (j : Nat)
    (y : Int) (h : Drawn start_point parameters j y) :
    j < start_point.length ∧ j < parameters.length := by
  obtain ⟨current, param, _, _, _, h1, h2, _, _⟩ := h
  obtain ⟨h3, _⟩ := List.getElem?_eq_some.1 h1
  obtain ⟨h4, _⟩ := List.getElem?_eq_some.1 h2
  exact ⟨h3, h4⟩

theorem change_params_candidate (start_point : List Int) (parameters : List (List Int))
    (indices : List Nat) (rand_gen rand_gen1 : RandGen) (new_point : List Int)
    (hne : indices.isEmpty = false)
    (h : change_params start_point parameters indices start_point rand_gen =
      .ok (new_point, rand_gen1)) :
    Candidate start_point parameters new_point := by
  obtain ⟨hlen, hout, hin⟩ := change_params_ok _ _ _ _ _ _ _ h
  refine ⟨hlen, ?_, ?_, ?_⟩
  · cases indices with
    | nil => simp at hne
    | cons indx rest => exact ⟨indx, hin indx (List.mem_cons_self _ _)⟩
  · intro j
    by_cases hj : j ∈ indices
    · exact Or.inr (hin j hj)
    · exact Or.inl (hout j hj)
  · intro j hj
    by_cases hji : j ∈ indices
    · obtain ⟨y, _, hy⟩ := hin j hji
      have := (Drawn.lt_length _ _ _ _ hy).2
      omega
    · exact hout j hji

theorem oneplusone_loop_returned (start_point : List Int) (parameters : List (List Int))
    (points_to_gen params_num : Nat) :
    ∀ (fuel : Nat) (points : List (List Int)) (rand_gen : RandGen) (S : List (List Int)),
      oneplusone_loop start_point parameters points_to_gen params_num fuel points rand_gen =
        .returned S →
      points.length ≤ points_to_gen → points.Nodup →
      (∀ p ∈ points, Candidate start_point parameters p) →
      S.length = points_to_gen ∧ S.Nodup ∧ ∀ p ∈ S, Candidate start_point parameters p := by
  intro fuel
  induction fuel with
  | zero =>
    intro points rand_gen S h hlen hnd hall
    unfold oneplusone_loop at h
    split at h
    · cases h
    · next hlt =>
      cases h
      exact ⟨by omega, hnd, hall⟩
  | succ fuel ih =>
    intro points rand_gen S h hlen hnd hall
    unfold oneplusone_loop at h
    split at h
    · next hlt =>
      cases h1 : select_params params_num rand_gen with
      | error f => simp [h1] at h
      | ok r =>
        obtain ⟨indices, rand_gen1⟩ := r
        simp only [h1] at h
        split at h
        · exact ih points rand_gen1 S h hlen hnd hall
        · next hne =>
          cases h2 : change_params start_point parameters indices start_point rand_gen1 with
          | error f => simp [h2] at h
          | ok r2 =>
            obtain ⟨new_point, rand_gen2⟩ := r2
            simp only [h2] at h
            have hcand := change_params_candidate _ _ _ _ _ _ (by simpa using hne) h2
            split at h
            · next hcount =>
              have hnew : new_point ∉ points := List.count_eq_zero.1 hcount
              refine ih (points ++ [new_point]) rand_gen2 S h ?_ ?_ ?_
              · simp only [List.length_append, List.length_singleton]
                omega
              · rw [List.nodup_append]
                refine ⟨hnd, List.nodup_singleton _, ?_⟩
                intro a ha hb
                rw [List.mem_singleton] at hb
                exact hnew (hb ▸ ha)
              · intro p hp
                rcases List.mem_append.1 hp with hp | hp
                · exact hall p hp
                · rw [List.mem_singleton] at hp
                  exact hp ▸ hcand
            · exact ih points rand_gen2 S h hlen hnd hall
    · next hlt =>
      cases h
      exact ⟨by omega, hnd, hall⟩

theorem oneplusone_returned (mt19937 : Nat → RandGen) (fuel : Nat) (start_point : List Int)
    (parameters : List (List Int)) (points_to_gen iteration : Nat) (S : List (List Int))
    (h : oneplusone mt19937 fuel start_point parameters points_to_gen iteration =
      .returned S) :
    S.length = points_to_gen ∧ S.Nodup ∧ ∀ p ∈ S, Candidate start_point parameters p := by
  unfold oneplusone at h
  split at h
  · cases h
  · split at h
    · cases h
    · split at h
      · cases h
      · exact oneplusone_loop_returned _ _ _ _ _ _ _ _ h (by simp) List.nodup_nil
          (fun p hp => absurd hp (List.not_mem_nil p))

theorem for_loop_ok_invariant {σ : Type} (body : Nat → σ → Except Failure σ)
    (P : Nat → σ → Prop) (todo : Nat) :
    ∀ (first : Nat) (s s1 : σ), for_loop body todo first s = .ok s1 → P first s →
      (∀ k t t1, first ≤ k → k < first + todo → P k t → body k t = .ok t1 → P (k + 1) t1) →
      P (first + todo) s1 := by
  induction todo with
  | zero =>
    intro first s s1 h h0 _
    simp only [for_loop, Except.ok.injEq] at h
    subst h
    simpa using h0
  | succ todo ih =>
    intro first s s1 h h0 hstep
    unfold for_loop at h
    cases hb : body first s with
    | error f => simp [hb] at h
    | ok t1 =>
      simp only [hb] at h
      have h1 := ih (first + 1) t1 s1 h (hstep first s t1 (le_refl _) (by omega) h0 hb)
        (fun k t t2 hk1 hk2 hP hbk => hstep k t t2 (by omega) (by omega) hP hbk)
      have e : first + (todo + 1) = first + 1 + todo := by omega
      rw [e]
      exact h1

theorem select_params_lt (params_num : Nat) (rand_gen rand_gen1 : RandGen)
    (indices : List Nat)
    (h : select_params params_num rand_gen = .ok (indices, rand_gen1)) :
    ∀ j ∈ indices, j < params_num := by
  have h1 := for_loop_ok_invariant _ (fun k (s : List Nat × RandGen) => ∀ j ∈ s.1, j < k)
    (params_num - 0) 0 ([], rand_gen) (indices, rand_gen1) h
    (fun j hj => absurd hj (List.not_mem_nil j))
    (by
      intro k t t1 _ _ hP hb
      cases hr : is_random_event_happens t.2
          ((Fraction.of_unsigned 1).div (Fraction.of_unsigned params_num)) with
      | error f => simp [hr] at hb
      | ok r =>
        obtain ⟨b, g⟩ := r
        cases b with
        | true =>
          simp only [hr, Except.ok.injEq] at hb
          subst hb
          intro j hj
          rcases List.mem_append.1 hj with hj | hj
          · have := hP j hj
            omega
          · rw [List.mem_singleton] at hj
            omega
        | false =>
          simp only [hr, Except.ok.injEq] at hb
          subst hb
          intro j hj
          have := hP j hj
          omega)
  intro j hj
  have := h1 j hj
  omega

theorem change_params_append (start_point extra : List Int) (parameters : List (List Int)) :
    ∀ (indices : List Nat) (new_point : List Int) (rand_gen : RandGen),
      (∀ j ∈ indices, j < start_point.length) → new_point.length = start_point.length →
      change_params (start_point ++ extra) parameters indices (new_point ++ extra) rand_gen =
        (change_params start_point parameters indices new_point rand_gen).map
          (fun r => (r.1 ++ extra, r.2)) := by
  intro indices
  induction indices with
  | nil =>
    intro new_point rand_gen _ _
    simp [change_params, Except.map]
  | cons indx rest ih =>
    intro new_point rand_gen hlt hlen
    have hi : indx < start_point.length := hlt indx (List.mem_cons_self _ _)
    have hget : vector_get 138 (start_point ++ extra) indx = vector_get 138 start_point indx := by
      simp only [vector_get, List.getElem?_append_left hi]
    have hget1 : vector_get 138 start_point indx = .ok start_point[indx] :=
      vector_get_eq _ _ _ hi
    unfold change_params
    rw [hget, hget1]
    cases h2 : vector_get 138 parameters indx with
    | error f => simp [Except.map]
    | ok param =>
      simp only
      cases h3 : new_param_value (to_unsigned start_point[indx]) param rand_gen with
      | error f => simp [Except.map]
      | ok r =>
        obtain ⟨new_val, rand_gen2⟩ := r
        have hs1 : vector_set 138 new_point indx (to_int new_val) =
            .ok (new_point.set indx (to_int new_val)) :=
          vector_set_eq _ _ _ _ (by omega)
        have hs2 : vector_set 138 (new_point ++ extra) indx (to_int new_val) =
            .ok (new_point.set indx (to_int new_val) ++ extra) := by
          rw [vector_set_eq _ _ _ _ (by simp; omega), List.set_append]
          simp [show indx < new_point.length by omega]
        simp only [hs1, hs2]
        exact ih _ rand_gen2 (fun j hj => hlt j (List.mem_cons_of_mem _ hj))
          (by simpa using hlen)

theorem count_append_right (extra : List Int) (points : List (List Int)) (p : List Int) :
    (points.map (fun q => q ++ extra)).count (p ++ extra) = 0 ↔ points.count p = 0 := by
  rw [List.count_eq_zero, List.count_eq_zero, List.mem_map]
  constructor
  · intro h hp
    exact h ⟨p, hp, rfl⟩
  · rintro h ⟨q, hq, e⟩
    have : q = p := List.append_cancel_right e
    exact h (this ▸ hq)

theorem oneplusone_loop_append (start_point extra : List Int) (parameters : List (List Int))
    (points_to_gen params_num : Nat) (hnum : params_num ≤ start_point.length) :
    ∀ (fuel : Nat) (points : List (List Int)) (rand_gen : RandGen),
      oneplusone_loop (start_point ++ extra) parameters points_to_gen params_num fuel
          (points.map (fun q => q ++ extra)) rand_gen =
        (oneplusone_loop start_point parameters points_to_gen params_num fuel points
          rand_gen).map (List.map (fun q => q ++ extra)) := by
  intro fuel
  induction fuel with
  | zero =>
    intro points rand_gen
    unfold oneplusone_loop
    by_cases hlt : points.length < points_to_gen <;> simp [hlt, Outcome.map]
  | succ fuel ih =>
    intro points rand_gen
    unfold oneplusone_loop
    by_cases hlt : points.length < points_to_gen
    · simp only [List.length_map, hlt, if_true]
      cases h1 : select_params params_num rand_gen with
      | error f => simp [Outcome.map]
      | ok r =>
        obtain ⟨indices, rand_gen1⟩ := r
        simp only
        by_cases hemp : indices.isEmpty = true
        · simp only [hemp, if_true]
          exact ih points rand_gen1
        · simp only [hemp, if_false]
          have hlt1 : ∀ j ∈ indices, j < start_point.length := fun j hj =>
            lt_of_lt_of_le (select_params_lt _ _ _ _ h1 j hj) hnum
          rw [change_params_append start_point extra parameters indices start_point rand_gen1
            hlt1 rfl]
          cases h2 : change_params start_point parameters indices start_point rand_gen1 with
          | error f => simp [Except.map, Outcome.map]
          | ok r2 =>
            obtain ⟨new_point, rand_gen2⟩ := r2
            simp only [Except.map]
            by_cases hc : points.count new_point = 0
            · have hc1 := (count_append_right extra points new_point).2 hc
              simp only [hc, hc1, if_true]
              have := ih (points ++ [new_point]) rand_gen2
              simpa using this
            · have hc1 : ¬ (points.map (fun q => q ++ extra)).count (new_point ++ extra) = 0 :=
                fun e => hc ((count_append_right extra points new_point).1 e)
              simp only [hc, hc1, if_false]
              exact ih points rand_gen2
    · simp [hlt, Outcome.map]

theorem select_params_one (rand_gen : RandGen) :
    select_params 1 rand_gen = .error (.assertion 100) := by
  rfl

theorem spec_weight_pos (i n j : Nat) (hji : j ≠ i) : 1 ≤ spec_weight i n j := by
  simp only [spec_weight, hji, if_false]
  exact Nat.one_le_two_pow

theorem calc_weights_invariants (A : Arith) (n i : Nat) (hi : i < n)
    (hfit : A = .uint32 → n < 2 ^ 32 ∧ max i (n - i - 1) ≤ 32) :
    ∃ w, calc_weights A i n = .ok w ∧ w.length = n ∧ w[i]? = some 0 ∧
      (∀ j, j < n → j ≠ i → ∃ x, w[j]? = some x ∧ 1 ≤ x) ∧
      (2 ≤ n → 0 < w.sum) ∧ (n = 1 → w = [0]) := by
  have hentry : ∀ j, j < n → ((List.range n).map (spec_weight i n))[j]? =
      some (spec_weight i n j) := by
    intro j hj
    rw [List.getElem?_map, List.getElem?_range hj]
    rfl
  refine ⟨(List.range n).map (spec_weight i n), calc_weights_eq A i n hi hfit, by simp, ?_,
    ?_, ?_, ?_⟩
  · rw [hentry i hi]
    simp [spec_weight]
  · intro j hj hji
    exact ⟨_, hentry j hj, spec_weight_pos i n j hji⟩
  · intro hn
    have hj : ∃ j, j < n ∧ j ≠ i := by
      by_cases h0 : i = 0
      · exact ⟨1, by omega, by omega⟩
      · exact ⟨0, by omega, fun e => h0 e.symm⟩
    obtain ⟨j, hj, hji⟩ := hj
    rw [Nat.pos_iff_ne_zero]
    intro hsum
    have hz := List.sum_eq_zero_iff.1 hsum (spec_weight i n j)
      (List.mem_iff_getElem?.2 ⟨j, hentry j hj⟩)
    have := spec_weight_pos i n j hji
    omega
  · intro hn
    subst hn
    have : i = 0 := by omega
    subst this
    rfl

theorem calc_weights_farthest (A : Arith) (n i : Nat) (hn : 2 ≤ n) (hi : i < n)
    (hfit : A = .uint32 → n < 2 ^ 32 ∧ max i (n - i - 1) ≤ 32) :
    ∃ w, calc_weights A i n = .ok w ∧
      (n - i - 1 ≤ i → w[0]? = some 1) ∧ (i ≤ n - i - 1 → w[n - 1]? = some 1) ∧
      (∀ j, j < n → j ≠ i → ∃ x, w[j]? = some x ∧ 1 ≤ x) := by
  have hentry : ∀ j, j < n → ((List.range n).map (spec_weight i n))[j]? =
      some (spec_weight i n j) := by
    intro j hj
    rw [List.getElem?_map, List.getElem?_range hj]
    rfl
  refine ⟨(List.range n).map (spec_weight i n), calc_weights_eq A i n hi hfit, ?_, ?_, ?_⟩
  · intro h
    rw [hentry 0 (by omega)]
    have h1 : (0 : Nat) ≠ i := by omega
    have h2 : 0 < i := by omega
    have h3 : max i (n - i - 1) - (i - 0) = 0 := by omega
    simp only [spec_weight, h1, if_false, h2, if_true, h3, pow_zero]
  · intro h
    rw [hentry (n - 1) (by omega)]
    have h1 : n - 1 ≠ i := by omega
    have h2 : ¬ n - 1 < i := by omega
    have h3 : max i (n - i - 1) - (n - 1 - i) = 0 := by omega
    simp only [spec_weight, h1, if_false, h2, h3, pow_zero]
  · intro j hj hji
    exact ⟨_, hentry j hj, spec_weight_pos i n j hji⟩

theorem new_param_value_overflow (rand_gen : RandGen) :
    new_param_value 0 ((List.range 34).map Int.ofNat) rand_gen = .error (.undefined 51) := by
  rw [new_param_value_eq]
  rfl

theorem spec_weights_getElem (i n j : Nat) (hj : j < n) :
    ((List.range n).map (spec_weight i n))[j]? = some (spec_weight i n j) := by
  rw [List.getElem?_map, List.getElem?_range hj]
  rfl

theorem spec_weight_lt (i n j : Nat) (hM : max i (n - i - 1) ≤ 32) :
    spec_weight i n j < 2 ^ 32 := by
  unfold spec_weight
  split
  · exact Nat.two_pow_pos 32
  · next hji =>
    have hpos : 0 < (if j < i then i - j else j - i) := by
      split <;> omega
    exact Nat.pow_lt_pow_right (by decide) (by omega)

theorem spec_weight_symmetric (i n d : Nat) (hd : 1 ≤ d) (hl : d ≤ i) :
    spec_weight i n (i - d) = spec_weight i n (i + d) := by
  have h1 : i - d ≠ i := by omega
  have h2 : i + d ≠ i := by omega
  have h3 : i - d < i := by omega
  have h4 : ¬ i + d < i := by omega
  simp only [spec_weight, h1, h2, h3, h4, if_true, if_false]
  congr 1
  omega

theorem spec_weight_halves (i n j j1 : Nat) (hj1 : j1 < n)
    (hside : (j < i ∧ j1 < i ∧ i - j1 = i - j + 1) ∨ (i < j ∧ i < j1 ∧ j1 - i = j - i + 1)) :
    spec_weight i n j = 2 * spec_weight i n j1 := by
  rcases hside with ⟨h1, h2, h3⟩ | ⟨h1, h2, h3⟩
  · have e1 : j ≠ i := by omega
    have e2 : j1 ≠ i := by omega
    simp only [spec_weight, e1, e2, h1, h2, if_true, if_false]
    have e3 : max i (n - i - 1) - (i - j) = (max i (n - i - 1) - (i - j1)) + 1 := by omega
    rw [e3, pow_succ]
    omega
  · have e1 : j ≠ i := by omega
    have e2 : j1 ≠ i := by omega
    have e4 : ¬ j < i := by omega
    have e5 : ¬ j1 < i := by omega
    simp only [spec_weight, e1, e2, e4, e5, if_false]
    have e3 : max i (n - i - 1) - (j - i) = (max i (n - i - 1) - (j1 - i)) + 1 := by omega
    rw [e3, pow_succ]
    omega

theorem spec_weight_antitone (i n j j1 : Nat) (hj : j ≠ i) (hj1 : j1 ≠ i)
    (hd : (if j < i then i - j else j - i) ≤ (if j1 < i then i - j1 else j1 - i)) :
    spec_weight i n j1 ≤ spec_weight i n j := by
  simp only [spec_weight, hj, hj1, if_false]
  exact Nat.pow_le_pow_right (by decide) (by omega)

theorem calc_weights_relations (A : Arith) (n i : Nat) (hi : i < n)
    (hfit : A = .uint32 → n < 2 ^ 32 ∧ max i (n - i - 1) ≤ 32) :
    ∃ w, calc_weights A i n = .ok w ∧
      (∀ d, 1 ≤ d → d ≤ i → i + d < n → ∃ x, w[i - d]? = some x ∧ w[i + d]? = some x) ∧
      (∀ j j1, j < n → j1 < n →
        (j < i ∧ j1 < i ∧ i - j1 = i - j + 1) ∨ (i < j ∧ i < j1 ∧ j1 - i = j - i + 1) →
        ∃ x y, w[j]? = some x ∧ w[j1]? = some y ∧ x = 2 * y) ∧
      (∀ j j1, j < n → j1 < n → j ≠ i → j1 ≠ i →
        (if j < i then i - j else j - i) ≤ (if j1 < i then i - j1 else j1 - i) →
        ∃ x y, w[j]? = some x ∧ w[j1]? = some y ∧ y ≤ x) := by
  refine ⟨_, calc_weights_eq A i n hi hfit, ?_, ?_, ?_⟩
  · intro d hd hl hr
    refine ⟨spec_weight i n (i + d), ?_, spec_weights_getElem i n _ hr⟩
    rw [spec_weights_getElem i n _ (by omega), spec_weight_symmetric i n d hd hl]
  · intro j j1 hj hj1 hside
    exact ⟨_, _, spec_weights_getElem i n j hj, spec_weights_getElem i n j1 hj1,
      spec_weight_halves i n j j1 hj1 hside⟩
  · intro j j1 hj hj1 hji hj1i hd
    exact ⟨_, _, spec_weights_getElem i n j hj, spec_weights_getElem i n j1 hj1,
      spec_weight_antitone i n j j1 hji hj1i hd⟩

theorem to_unsigned_injective (x y : Int) (hx : is_int x) (hy : is_int y)
    (h : to_unsigned x = to_unsigned y) : x = y := by
  rw [← to_int_to_unsigned x hx, ← to_int_to_unsigned y hy, h]

theorem findIdx_to_unsigned (param : List Int) (k : Nat) (hk : k < param.length)
    (hdistinct : param.Nodup) (hint : ∀ x ∈ param, is_int x) :
    param.findIdx (fun x => decide (to_unsigned x = to_unsigned param[k])) = k := by
  rw [List.findIdx_eq hk]
  refine ⟨by simp, ?_⟩
  intro j hjk
  have hj : j < param.length := by omega
  have hne : param[j] ≠ param[k] := by
    intro e
    have := (@List.Nodup.getElem_inj_iff Int param hdistinct j hj k hk).1 e
    omega
  have : to_unsigned param[j] ≠ to_unsigned param[k] := fun e =>
    hne (to_unsigned_injective _ _ (hint _ (List.getElem_mem hj))
      (hint _ (List.getElem_mem hk)) e)
  simpa using this

theorem oneplusone_loop_succ (start_point : List Int) (parameters : List (List Int))
    (points_to_gen params_num fuel : Nat) (points : List (List Int)) (rand_gen : RandGen) :
    oneplusone_loop start_point parameters points_to_gen params_num (fuel + 1) points rand_gen =
      if points.length < points_to_gen then
        match loop_body start_point parameters params_num points rand_gen with
        | .error f => .failed f
        | .ok (points1, rand_gen1) =>
          oneplusone_loop start_point parameters points_to_gen params_num fuel points1 rand_gen1
      else .returned points := by
  rw [oneplusone_loop]
  unfold loop_body
  by_cases hlt : points.length < points_to_gen
  · simp only [hlt, if_true]
    cases h1 : select_params params_num rand_gen with
    | error f => rfl
    | ok r =>
      obtain ⟨indices, rand_gen1⟩ := r
      simp only
      by_cases hemp : indices.isEmpty = true
      · simp only [hemp, if_true]
      · have hemp1 : indices.isEmpty = false := by simpa using hemp
        simp only [hemp1, Bool.false_eq_true, if_false]
        cases h2 : change_params start_point parameters indices start_point rand_gen1 with
        | error f => rfl
        | ok r2 =>
          obtain ⟨new_point, rand_gen2⟩ := r2
          simp only
          by_cases hc : points.count new_point = 0
          · simp only [hc, if_true]
          · simp only [hc, if_false]
  · simp only [hlt, if_false]

theorem probability_in_range (n : Nat) (hn : 2 ≤ n) :
    Fraction.of_unsigned 0 < (Fraction.of_unsigned 1).div (Fraction.of_unsigned n) ∧
    (Fraction.of_unsigned 1).div (Fraction.of_unsigned n) < Fraction.of_unsigned 1 := by
  constructor
  · show 0 * (1 * n) < 1 * 1 * 1
    omega
  · show 1 * 1 * 1 < 1 * (1 * n)
    omega

theorem is_random_event_happens_eq (rand_gen : RandGen) (probability : Fraction)
    (h : Fraction.of_unsigned 0 < probability ∧ probability < Fraction.of_unsigned 1) :
    is_random_event_happens rand_gen probability =
      .ok (decide ((⟨rand_gen 0 % 2 ^ 53, 2 ^ 53⟩ : Fraction) < probability),
        rand_gen.advance) := by
  unfold is_random_event_happens
  simp only [assert, h, uniform_real_distribution, bind, Except.bind, pure, Except.pure,
    and_self, decide_True, if_true]
  split
  · next hd => simp only [hd, decide_True]
  · next hd => simp only [hd, decide_False]

theorem select_params_succeeds (n : Nat) (hn : 2 ≤ n) (rand_gen : RandGen) :
    ∃ indices, select_params n rand_gen = .ok (indices, fun k => rand_gen (k + n)) := by
  obtain ⟨s, hs, hP⟩ := for_loop_invariant
    (fun i (s : List Nat × RandGen) =>
      match is_random_event_happens s.2
          ((Fraction.of_unsigned 1).div (Fraction.of_unsigned n)) with
      | .error f => .error f
      | .ok (true, rand_gen) => .ok (s.1 ++ [i], rand_gen)
      | .ok (false, rand_gen) => .ok (s.1, rand_gen))
    (fun k s => s.2 = fun j => rand_gen (j + k)) (n - 0) 0 ([], rand_gen)
    (by funext j; rfl)
    (by
      intro k t _ _ hP
      beta_reduce
      rw [is_random_event_happens_eq _ _ (probability_in_range n hn)]
      by_cases hd : (⟨t.2 0 % 2 ^ 53, 2 ^ 53⟩ : Fraction) <
          (Fraction.of_unsigned 1).div (Fraction.of_unsigned n)
      · refine ⟨(t.1 ++ [k], t.2.advance), by simp only [hd, decide_True], ?_⟩
        show t.2.advance = _
        rw [hP]
        funext j
        simp only [RandGen.advance]
        congr 1
        omega
      · refine ⟨(t.1, t.2.advance), by simp only [hd, decide_False], ?_⟩
        show t.2.advance = _
        rw [hP]
        funext j
        simp only [RandGen.advance]
        congr 1
        omega)
  refine ⟨s.1, ?_⟩
  have e : s = (s.1, fun k => rand_gen (k + n)) := by
    have : s.2 = fun j => rand_gen (j + n) := by simpa using hP
    rw [← this]
  rw [← e]
  exact hs

theorem select_params_none (n : Nat) (hn : 2 ≤ n) (rand_gen : RandGen)
    (hdraws : ∀ i, i < n →
      ¬ ((⟨rand_gen i % 2 ^ 53, 2 ^ 53⟩ : Fraction) <
        (Fraction.of_unsigned 1).div (Fraction.of_unsigned n))) :
    select_params n rand_gen = .ok ([], fun k => rand_gen (k + n)) := by
  obtain ⟨s, hs, hP⟩ := for_loop_invariant
    (fun i (s : List Nat × RandGen) =>
      match is_random_event_happens s.2
          ((Fraction.of_unsigned 1).div (Fraction.of_unsigned n)) with
      | .error f => .error f
      | .ok (true, rand_gen) => .ok (s.1 ++ [i], rand_gen)
      | .ok (false, rand_gen) => .ok (s.1, rand_gen))
    (fun k s => s = ([], fun j => rand_gen (j + k))) (n - 0) 0 ([], rand_gen)
    (by
      show (([] : List Nat), rand_gen) = ([], fun j => rand_gen (j + 0))
      rfl)
    (by
      intro k t _ hk hP
      subst hP
      beta_reduce
      rw [is_random_event_happens_eq _ _ (probability_in_range n hn)]
      have hd := hdraws k (by omega)
      have hd1 : ¬ ((⟨rand_gen (0 + k) % 2 ^ 53, 2 ^ 53⟩ : Fraction) <
          (Fraction.of_unsigned 1).div (Fraction.of_unsigned n)) := by
        rw [Nat.zero_add]
        exact hd
      refine ⟨([], fun j => rand_gen (j + (k + 1))), ?_, rfl⟩
      simp only [hd1, decide_False]
      congr 2
      funext j
      simp only [RandGen.advance]
      congr 1
      omega)
  have e : s = ([], fun k => rand_gen (k + n)) := by simpa using hP
  rw [← e]
  exact hs


theorem Candidate.is_not_start (start_point : List Int) (parameters : List (List Int))
    (p : List Int) (h : Candidate start_point parameters p) : p ≠ start_point := by
  obtain ⟨_, ⟨j, y, hy, hd⟩, _, _⟩ := h
  intro e
  apply Drawn.ne_start _ _ _ _ hd
  rw [← hy, e]

theorem loop_body_ok (start_point : List Int) (parameters : List (List Int))
    (params_num : Nat) (points points1 : List (List Int)) (rand_gen rand_gen1 : RandGen)
    (h : loop_body start_point parameters params_num points rand_gen =
      .ok (points1, rand_gen1)) :
    points1 = points ∨
      ∃ new_point, points1 = points ++ [new_point] ∧ new_point ∉ points ∧
        Candidate start_point parameters new_point := by
  unfold loop_body at h
  cases h1 : select_params params_num rand_gen with
  | error f => simp [h1] at h
  | ok r =>
    obtain ⟨indices, rand_gen2⟩ := r
    simp only [h1] at h
    split at h
    · left
      simp only [Except.ok.injEq, Prod.mk.injEq] at h
      exact h.1.symm
    · next hne =>
      cases h2 : change_params start_point parameters indices start_point rand_gen2 with
      | error f => simp [h2] at h
      | ok r2 =>
        obtain ⟨new_point, rand_gen3⟩ := r2
        simp only [h2] at h
        have hcand := change_params_candidate _ _ _ _ _ _ (by simpa using hne) h2
        split at h
        · next hcount =>
          right
          simp only [Except.ok.injEq, Prod.mk.injEq] at h
          exact ⟨new_point, h.1.symm, List.count_eq_zero.1 hcount, hcand⟩
        · left
          simp only [Except.ok.injEq, Prod.mk.injEq] at h
          exact h.1.symm

theorem Candidate.mem_reachable (start_point : List Int) (parameters : List (List Int))
    (p : List Int) (hlen : start_point.length = parameters.length)
    (hint : ∀ d ∈ parameters, ∀ x ∈ d, is_int x)
    (h : Candidate start_point parameters p) : p ∈ reachable_points start_point parameters := by
  unfold reachable_points
  rw [List.mem_filter]
  refine ⟨?_, by simpa using Candidate.is_not_start _ _ _ h⟩
  obtain ⟨hp, _, hall, _⟩ := h
  rw [List.mem_sections, List.forall₂_iff_get]
  refine ⟨by rw [List.length_zipWith, hp, hlen]; simp, ?_⟩
  intro i h1 h2
  have hs : i < start_point.length := by omega
  have hq : i < parameters.length := by omega
  simp only [List.get_eq_getElem, List.getElem_zipWith]
  rcases hall i with e | ⟨y, hy, hd⟩
  · rw [List.getElem?_eq_getElem h1, List.getElem?_eq_getElem hs] at e
    have e1 : p[i] = start_point[i] := by simpa using e
    rw [e1]
    exact List.mem_cons_self _ _
  · obtain ⟨param, hparam, hmem⟩ := Drawn.mem_domain _ _ _ _ hd
    rw [List.getElem?_eq_getElem hq] at hparam
    have e2 : parameters[i] = param := by simpa using hparam
    rw [List.getElem?_eq_getElem h1] at hy
    have e3 : p[i] = y := by simpa using hy
    rw [e3, e2]
    exact List.mem_cons_of_mem _ (hmem (hint param (e2 ▸ List.getElem_mem hq)))

theorem outcome_cases {α : Type} (r : Outcome α) (h : ∀ a, r ≠ .returned a) :
    r = .running ∨ ∃ f, r = .failed f := by
  cases r with
  | returned a => exact absurd rfl (h a)
  | failed f => exact Or.inr ⟨f, rfl⟩
  | running => exact Or.inl rfl

/-- C1, at the failing input: for a domain of 34 values whose current value is
the first, `calc_weights(0, 34)` returns no vector `w` with
`w[1] = 2 ^ (max(0, 33) - 1)`: that weight is `2 ^ 32`, and the assignment of
`std::pow(2, 32)` to an `unsigned` at line 51 is an undefined conversion.  As
long as `max(i, n-i-1) ≤ 32` the program returns what the claim states, as the
Python reference does for every `n`: a vector `w` of length `n` with
`w[i] = 0` and `w[j] = 2 ^ (max(i, n-i-1) - |j-i|)` at every other position
`j < n`.  The program returns the nine vectors that the assertions at the top
of `new_param_value` expect. -/
theorem calc_weights_formula_overflow :
    calc_weights .uint32 0 34 = .error (.undefined 51) ∧
    (¬ ∃ w, calc_weights .uint32 0 34 = .ok w ∧
      w[1]? = some (2 ^ (max 0 (34 - 0 - 1) - (1 - 0)))) ∧
    (∀ (A : Arith) (n i : Nat), 1 ≤ n → i < n →
      (A = .uint32 → n < 2 ^ 32 ∧ max i (n - i - 1) ≤ 32) →
      ∃ w, calc_weights A i n = .ok w ∧ w.length = n ∧ w[i]? = some 0 ∧
        ∀ j, j < n → j ≠ i →
          w[j]? = some (2 ^ (max i (n - i - 1) - (if j < i then i - j else j - i)))) ∧
    calc_weights .uint32 0 2 = .ok [0, 1] ∧
    calc_weights .uint32 1 2 = .ok [1, 0] ∧
    calc_weights .uint32 0 3 = .ok [0, 2, 1] ∧
    calc_weights .uint32 1 3 = .ok [1, 0, 1] ∧
    calc_weights .uint32 2 3 = .ok [1, 2, 0] ∧
    calc_weights .uint32 0 4 = .ok [0, 4, 2, 1] ∧
    calc_weights .uint32 1 4 = .ok [2, 0, 2, 1] ∧
    calc_weights .uint32 2 4 = .ok [1, 2, 0, 2] ∧
    calc_weights .uint32 3 4 = .ok [1, 2, 4, 0] := by
  have hfail : calc_weights .uint32 0 34 = .error (.undefined 51) := by decide
  refine ⟨hfail, ?_, ?_, by decide, by decide, by decide, by decide, by decide, by decide,
    by decide, by decide, by decide⟩
  · rintro ⟨w, hw, _⟩
    rw [hfail] at hw
    cases hw
  · intro A n i _ hi hfit
    refine ⟨(List.range n).map (spec_weight i n), calc_weights_eq A i n hi hfit, by simp,
      ?_, ?_⟩
    · rw [spec_weights_getElem i n i hi]
      simp [spec_weight]
    · intro j hj hji
      rw [spec_weights_getElem i n j hj]
      simp [spec_weight, hji]

/-- C2, at the failing input: for a domain of 34 values whose current value is
the first, `calc_weights(0, 34)` does not return a vector with entries `≥ 1`
off position 0.  The weight of position 1 is `2 ^ 32`, as the exact reading
shows, and the assignment of `std::pow(2, 32)` to an `unsigned` at line 51 is
an undefined conversion; `new_param_value` stops there for every state of the
random source.  As long as `max(i, n-i-1) ≤ 32` the vector that the program
returns has what the claim states: length `n`, 0 at position `i`, entries
`≥ 1` elsewhere and a positive sum when `n ≥ 2`, and is `[0]` when `n = 1`. -/
theorem calc_weights_overflow_right :
    calc_weights .uint32 0 34 = .error (.undefined 51) ∧
    (calc_weights .exact 0 34).map (fun w => w[1]?) = .ok (some (2 ^ 32)) ∧
    (∀ rand_gen : RandGen,
      new_param_value 0 ((List.range 34).map Int.ofNat) rand_gen =
        .error (.undefined 51)) ∧
    (∀ n i : Nat, 1 ≤ n → i < n → n < 2 ^ 32 → max i (n - i - 1) ≤ 32 →
      ∃ w, calc_weights .uint32 i n = .ok w ∧ w.length = n ∧ w[i]? = some 0 ∧
        (∀ j, j < n → j ≠ i → ∃ x, w[j]? = some x ∧ 1 ≤ x) ∧
        (2 ≤ n → 0 < w.sum) ∧ (n = 1 → w = [0])) :=
  ⟨by decide, by decide, new_param_value_overflow,
    fun n i _ hi hn hM => calc_weights_invariants .uint32 n i hi (fun _ => ⟨hn, hM⟩)⟩

/-- C3: for every domain of at least two pairwise distinct entries, every
current value that occurs in it and every state of the random source, a value
`v` that `new_param_value` returns is (the `unsigned` image of) an entry of
the domain, and differs from the current value; read back as an `int` it is
an entry of the domain. -/
theorem new_param_value_result (current_value : Nat) (param : List Int)
    (rand_gen rand_gen1 : RandGen) (v : Nat)
    (_hsize : 2 ≤ param.length) (_hdistinct : param.Nodup)
    (_hocc : ∃ x ∈ param, to_unsigned x = current_value)
    (hret : new_param_value current_value param rand_gen = .ok (v, rand_gen1)) :
    (∃ x ∈ param, to_unsigned x = v) ∧ v ≠ current_value ∧
      ((∀ x ∈ param, is_int x) → to_int v ∈ param) := by
  obtain ⟨weights, x, _, _, _, _, hx, hxv, hv, _⟩ :=
    (new_param_value_ok_iff current_value param rand_gen rand_gen1 v).1 hret
  have hmem : x ∈ param := List.mem_iff_getElem?.2 ⟨_, hx⟩
  refine ⟨⟨x, hmem, hxv⟩, hv, fun hint => ?_⟩
  rw [← hxv, to_int_to_unsigned x (hint x hmem)]
  exact hmem

/-- C3, for the domain `[1, 2, 3]` and the current value 1: the value 2 is
returned. -/
theorem new_param_value_result_witness :
    (2 ≤ [1, 2, 3].length ∧ [1, 2, 3].Nodup ∧ (∃ x ∈ [1, 2, 3], to_unsigned x = 1) ∧
      new_param_value 1 [1, 2, 3] (fun _ => 1) = .ok (2, RandGen.advance (fun _ => 1))) ∧
    ((∃ x ∈ ([1, 2, 3] : List Int), to_unsigned x = 2) ∧ 2 ≠ 1 ∧
      ((∀ x ∈ ([1, 2, 3] : List Int), is_int x) → to_int 2 ∈ ([1, 2, 3] : List Int))) :=
  ⟨⟨by decide, by decide, by decide, by rfl⟩,
    new_param_value_result 1 [1, 2, 3] (fun _ => 1) (RandGen.advance (fun _ => 1)) 2
      (by decide) (by decide) (by decide) (by rfl)⟩

/-- C4: `new_param_value` returns no value, whatever the state of the random
source, when the current value does not occur in the domain (the assertion of
line 71 fails), and when the domain has fewer than two distinct values. -/
theorem new_param_value_fails (current_value : Nat) (param : List Int) (rand_gen : RandGen)
    (h : (∀ x ∈ param, to_unsigned x ≠ current_value) ∨ param.toFinset.card < 2) :
    (∃ f, new_param_value current_value param rand_gen = .error f) ∧
    ((∀ x ∈ param, to_unsigned x ≠ current_value) →
      new_param_value current_value param rand_gen = .error (.assertion 71)) := by
  constructor
  · apply except_error_of_not_ok
    rintro ⟨v, rand_gen1⟩ hret
    obtain ⟨weights, x, hfound, _, _, _, hx, hxv, hv, _⟩ :=
      (new_param_value_ok_iff current_value param rand_gen rand_gen1 v).1 hret
    have hmem : x ∈ param := List.mem_iff_getElem?.2 ⟨_, hx⟩
    have hlt : param.findIdx (fun x => decide (to_unsigned x = current_value)) <
        param.length :=
      lt_of_le_of_ne (List.findIdx_le_length _) hfound
    obtain ⟨y, hy, hyc⟩ := List.findIdx_lt_length.1 hlt
    rcases h with h | h
    · exact h y hy (by simpa using hyc)
    · have hone : ∀ a ∈ param.toFinset, ∀ b ∈ param.toFinset, a = b :=
        Finset.card_le_one.1 (by omega)
      have hxy : x = y := hone x (by simpa using hmem) y (by simpa using hy)
      apply hv
      rw [← hxv, hxy]
      simpa using hyc
  · intro habsent
    have hend : param.findIdx (fun x => decide (to_unsigned x = current_value)) =
        param.length :=
      List.findIdx_eq_length.2 (fun x hx => by simpa using habsent x hx)
    rw [new_param_value_eq]
    simp [hend, assert, bind, Except.bind]

/-- C4, for the domain `[5, 5]` and the current value 5. -/
theorem new_param_value_fails_witness :
    ((∀ x ∈ ([5, 5] : List Int), to_unsigned x ≠ 5) ∨ ([5, 5] : List Int).toFinset.card < 2) ∧
    (∃ f, new_param_value 5 [5, 5] (fun _ => 1) = .error f) :=
  ⟨Or.inr (by decide), (new_param_value_fails 5 [5, 5] (fun _ => 1) (Or.inr (by decide))).1⟩

/-- C5: for a start point, a parameter space of the same length, a target
count `k ≥ 1` and a seed, a set `S` that `oneplusone` returns has exactly `k`
elements, pairwise distinct, each of the length of the start point and each
different from the start point in at least one coordinate; the start point is
not in `S`. -/
theorem oneplusone_result (mt19937 : Nat → RandGen) (fuel : Nat) (start_point : List Int)
    (parameters : List (List Int)) (k iteration : Nat) (S : List (List Int))
    (_hlen : start_point.length = parameters.length) (_hk : 1 ≤ k)
    (hret : oneplusone mt19937 fuel start_point parameters k iteration = .returned S) :
    S.length = k ∧ S.Nodup ∧ (∀ p ∈ S, p.length = start_point.length) ∧
    (∀ p ∈ S, ∃ j, j < start_point.length ∧ p[j]? ≠ start_point[j]?) ∧
    start_point ∉ S := by
  obtain ⟨h1, h2, h3⟩ := oneplusone_returned _ _ _ _ _ _ _ hret
  have hdiff : ∀ p ∈ S, ∃ j, j < start_point.length ∧ p[j]? ≠ start_point[j]? := by
    intro p hp
    obtain ⟨_, ⟨j, y, hy, hd⟩, _, _⟩ := h3 p hp
    refine ⟨j, (Drawn.lt_length _ _ _ _ hd).1, ?_⟩
    rw [hy]
    exact Ne.symm (Drawn.ne_start _ _ _ _ hd)
  refine ⟨h1, h2, fun p hp => (h3 p hp).1, hdiff, ?_⟩
  intro hmem
  obtain ⟨j, _, hj⟩ := hdiff start_point hmem
  exact hj rfl

/-- C5, for the start point `[0, 1]` in the space `[[0, 1], [1, 2, 3]]` and the
target count 2: the set of `[1, 2]` and `[0, 2]` is returned. -/
theorem oneplusone_result_witness :
    (([0, 1] : List Int).length = ([[0, 1], [1, 2, 3]] : List (List Int)).length ∧ 1 ≤ 2 ∧
      oneplusone (fun _ k => if k = 5 then 2 else if k = 4 then 2 ^ 52 else 1) 2 [0, 1]
        [[0, 1], [1, 2, 3]] 2 1 = .returned [[1, 2], [0, 2]]) ∧
    (([[1, 2], [0, 2]] : List (List Int)).length = 2 ∧
      ([[1, 2], [0, 2]] : List (List Int)).Nodup ∧
      (∀ p ∈ ([[1, 2], [0, 2]] : List (List Int)), p.length = ([0, 1] : List Int).length) ∧
      (∀ p ∈ ([[1, 2], [0, 2]] : List (List Int)),
        ∃ j, j < ([0, 1] : List Int).length ∧ p[j]? ≠ ([0, 1] : List Int)[j]?) ∧
      ([0, 1] : List Int) ∉ ([[1, 2], [0, 2]] : List (List Int))) :=
  ⟨⟨by decide, by decide, by decide⟩,
    oneplusone_result (fun _ k => if k = 5 then 2 else if k = 4 then 2 ^ 52 else 1) 2 [0, 1]
      [[0, 1], [1, 2, 3]] 2 1 [[1, 2], [0, 2]] (by decide) (by decide) (by decide)⟩

/-- C6: in a point `p` that `oneplusone` returns, every coordinate either is
that of the start point, or was drawn by `new_param_value` for the value of the
start point at that position and the domain of that position: it is an entry
of that domain and differs from the value of the start point.  For the space
`[[0, 1], [1, 2, 3]]`, the start point `[0, 1]` and the target count 1, a
returned point is one of `[1, 1]`, `[0, 2]`, `[0, 3]`, `[1, 2]`, `[1, 3]` and is
not `[0, 1]`. -/
theorem oneplusone_coordinates :
    (∀ (mt19937 : Nat → RandGen) (fuel : Nat) (start_point : List Int)
        (parameters : List (List Int)) (k iteration : Nat) (S : List (List Int))
        (p : List Int) (j : Nat),
      (∀ d ∈ parameters, ∀ x ∈ d, is_int x) →
      oneplusone mt19937 fuel start_point parameters k iteration = .returned S →
      p ∈ S → j < p.length →
      p[j]? = start_point[j]? ∨
      ∃ (current : Int) (param : List Int) (rand_gen rand_gen1 : RandGen) (new_val : Nat),
        start_point[j]? = some current ∧ parameters[j]? = some param ∧
        new_param_value (to_unsigned current) param rand_gen = .ok (new_val, rand_gen1) ∧
        p[j]? = some (to_int new_val) ∧ to_int new_val ∈ param ∧ to_int new_val ≠ current) ∧
    (∀ (mt19937 : Nat → RandGen) (fuel iteration : Nat) (S : List (List Int)) (p : List Int),
      oneplusone mt19937 fuel [0, 1] [[0, 1], [1, 2, 3]] 1 iteration = .returned S →
      p ∈ S →
      p ∈ ([[1, 1], [0, 2], [0, 3], [1, 2], [1, 3]] : List (List Int)) ∧ p ≠ [0, 1]) := by
  have general : ∀ (mt19937 : Nat → RandGen) (fuel : Nat) (start_point : List Int)
      (parameters : List (List Int)) (k iteration : Nat) (S : List (List Int))
      (p : List Int) (j : Nat),
      (∀ d ∈ parameters, ∀ x ∈ d, is_int x) →
      oneplusone mt19937 fuel start_point parameters k iteration = .returned S →
      p ∈ S → j < p.length →
      p[j]? = start_point[j]? ∨
      ∃ (current : Int) (param : List Int) (rand_gen rand_gen1 : RandGen) (new_val : Nat),
        start_point[j]? = some current ∧ parameters[j]? = some param ∧
        new_param_value (to_unsigned current) param rand_gen = .ok (new_val, rand_gen1) ∧
        p[j]? = some (to_int new_val) ∧ to_int new_val ∈ param ∧ to_int new_val ≠ current := by
    intro mt19937 fuel start_point parameters k iteration S p j hint hret hp _
    obtain ⟨_, _, h3⟩ := oneplusone_returned _ _ _ _ _ _ _ hret
    obtain ⟨_, _, hall, _⟩ := h3 p hp
    rcases hall j with h | ⟨y, hy, hd⟩
    · exact Or.inl h
    · right
      have hne := Drawn.ne_start _ _ _ _ hd
      obtain ⟨param1, hp1, hmem⟩ := Drawn.mem_domain _ _ _ _ hd
      obtain ⟨current, param, rand_gen, rand_gen1, new_val, h1, h2, h4, h5⟩ := hd
      have e : param1 = param := by
        rw [hp1] at h2
        simpa using h2
      subst e
      have hin : param1 ∈ parameters := List.mem_iff_getElem?.2 ⟨j, hp1⟩
      refine ⟨current, param1, rand_gen, rand_gen1, new_val, h1, hp1, h4, h5 ▸ hy,
        h5 ▸ hmem (hint param1 hin), ?_⟩
      intro e
      apply hne
      rw [h1, h5, e]
  refine ⟨general, ?_⟩
  intro mt19937 fuel iteration S p hret hp
  have hint : ∀ d ∈ ([[0, 1], [1, 2, 3]] : List (List Int)), ∀ x ∈ d, is_int x := by
    decide
  obtain ⟨_, _, h3⟩ := oneplusone_returned _ _ _ _ _ _ _ hret
  obtain ⟨hlen, ⟨i, y, hy, hd⟩, _, _⟩ := h3 p hp
  have hdiff : p ≠ [0, 1] := by
    intro e
    apply Drawn.ne_start _ _ _ _ hd
    rw [← hy, e]
  refine ⟨?_, hdiff⟩
  match p, hlen with
  | [a, b], _ =>
    have ha : a = 0 ∨ a = 1 := by
      rcases general mt19937 fuel _ _ _ iteration S [a, b] 0 hint hret hp (by simp) with
        h | ⟨current, param, _, _, new_val, h1, h2, _, h4, h5, _⟩
      · left
        simpa using h
      · right
        have e1 : param = [0, 1] := by simpa using h2.symm
        have e2 : a = to_int new_val := by simpa using h4
        have e3 : current = 0 := by simpa using h1.symm
        subst e1 e3
        rw [← e2] at h5
        have h6 : a ≠ 0 := by
          rw [e2]
          assumption
        simp only [List.mem_cons, List.mem_singleton, List.not_mem_nil, or_false] at h5
        rcases h5 with h5 | h5
        · exact absurd h5 h6
        · exact h5
    have hb : b = 1 ∨ b = 2 ∨ b = 3 := by
      rcases general mt19937 fuel _ _ _ iteration S [a, b] 1 hint hret hp (by simp) with
        h | ⟨current, param, _, _, new_val, h1, h2, _, h4, h5, _⟩
      · left
        simpa using h
      · have e1 : param = [1, 2, 3] := by simpa using h2.symm
        have e2 : b = to_int new_val := by simpa using h4
        subst e1
        rw [← e2] at h5
        simpa using h5
    rcases ha with ha | ha <;> rcases hb with hb | hb | hb <;> subst ha hb <;>
      first
      | exact absurd rfl hdiff
      | decide

/-- C6, on a run for the start point `[0, 1]` in the space
`[[0, 1], [1, 2, 3]]` that returns the point `[1, 2]`: at position 0 the point
holds a value drawn for the start point's 0 from the domain `[0, 1]`. -/
theorem oneplusone_coordinates_witness :
    oneplusone (fun _ _ => 1) 1 [0, 1] [[0, 1], [1, 2, 3]] 1 1 = .returned [[1, 2]] ∧
    (([1, 2] : List Int)[0]? = ([0, 1] : List Int)[0]? ∨
      ∃ (current : Int) (param : List Int) (rand_gen rand_gen1 : RandGen) (new_val : Nat),
        ([0, 1] : List Int)[0]? = some current ∧
        ([[0, 1], [1, 2, 3]] : List (List Int))[0]? = some param ∧
        new_param_value (to_unsigned current) param rand_gen = .ok (new_val, rand_gen1) ∧
        ([1, 2] : List Int)[0]? = some (to_int new_val) ∧ to_int new_val ∈ param ∧
        to_int new_val ≠ current) :=
  ⟨by decide,
    oneplusone_coordinates.1 (fun _ _ => 1) 1 [0, 1] [[0, 1], [1, 2, 3]] 1 1 [[1, 2]] [1, 2] 0
      (by decide) (by decide) (by decide) (by decide)⟩

/-- C7: when the start point is empty, or the parameter space is empty, or the
target count is 0, `oneplusone` fails at one of its three opening assertions,
for every seed and before its loop has run at all (for every bound on the
number of iterations, 0 included). -/
theorem oneplusone_rejects_empty (mt19937 : Nat → RandGen) (fuel : Nat)
    (start_point : List Int) (parameters : List (List Int)) (k iteration : Nat)
    (h : start_point = [] ∨ parameters = [] ∨ k = 0) :
    oneplusone mt19937 fuel start_point parameters k iteration = .failed (.assertion 116) ∨
    oneplusone mt19937 fuel start_point parameters k iteration = .failed (.assertion 117) ∨
    oneplusone mt19937 fuel start_point parameters k iteration = .failed (.assertion 118) := by
  unfold oneplusone
  by_cases h1 : parameters.isEmpty = true
  · left
    simp [h1]
  · by_cases h2 : start_point.isEmpty = true
    · right; left
      simp [h1, h2]
    · right; right
      have h3 : k = 0 := by
        rcases h with h | h | h
        · subst h
          simp at h2
        · subst h
          simp at h1
        · exact h
      simp [h1, h2, h3]

/-- C7, for an empty start point, an empty parameter space and the target
count 0. -/
theorem oneplusone_rejects_empty_witness :
    (([] : List Int) = [] ∨ ([[0, 1]] : List (List Int)) = [] ∨ 3 = 0) ∧
    oneplusone (fun _ _ => 1) 0 [] [[0, 1]] 3 1 = .failed (.assertion 117) ∧
    oneplusone (fun _ _ => 1) 0 [0] [] 3 1 = .failed (.assertion 116) ∧
    oneplusone (fun _ _ => 1) 0 [0] [[0, 1]] 0 1 = .failed (.assertion 118) :=
  ⟨Or.inl rfl,
    (oneplusone_rejects_empty (fun _ _ => 1) 0 [] [[0, 1]] 3 1 (Or.inl rfl)).elim
      (fun h => by revert h; decide)
      (fun h => h.elim id (fun h => by revert h; decide)),
    by decide, by decide⟩

/-- C8 as stated is false: a call whose start point is longer than the
parameter space returns a set, and so does a call whose start point is shorter,
whenever the loop runs at least once. -/
theorem oneplusone_unequal_lengths_counterexample :
    (∀ fuel : Nat, oneplusone (fun _ _ => 1) (fuel + 1) [0, 1, 9] [[0, 1], [1, 2, 3]] 1 1 =
      .returned [[1, 2, 9]]) ∧
    (∀ fuel : Nat, oneplusone (fun _ k => if k = 1 then 2 ^ 52 else 1) (fuel + 1) [0]
      [[0, 1], [1, 2, 3]] 1 1 = .returned [[1]]) := by
  constructor <;> intro fuel <;> cases fuel <;> rfl

/-- C8, amended: `oneplusone` does not compare the length of the start point
with the number of domains.  A start point that is longer than the parameter
space is treated as its prefix of the length of the parameter space: the call
fails, keeps running or returns as the call on the prefix does, and every
point of the returned set carries the surplus coordinates of the start point
unchanged. -/
theorem oneplusone_longer_start_point (mt19937 : Nat → RandGen) (fuel : Nat)
    (start_point extra : List Int) (parameters : List (List Int)) (k iteration : Nat)
    (hlen : start_point.length = parameters.length) :
    oneplusone mt19937 fuel (start_point ++ extra) parameters k iteration =
      (oneplusone mt19937 fuel start_point parameters k iteration).map
        (List.map (fun p => p ++ extra)) := by
  unfold oneplusone
  by_cases h1 : parameters.isEmpty = true
  · simp [h1, Outcome.map]
  · have h2 : start_point.isEmpty = false := by
      cases start_point with
      | nil =>
        cases parameters with
        | nil => simp at h1
        | cons a b => simp at hlen
      | cons a b => rfl
    have h3 : (start_point ++ extra).isEmpty = false := by
      cases start_point with
      | nil => simp at h2
      | cons a b => rfl
    by_cases h4 : k = 0
    · simp [h1, h2, h3, h4, Outcome.map]
    · simp only [h1, h2, h3, h4, if_false, Bool.false_eq_true]
      have := oneplusone_loop_append start_point extra parameters k
        (parameters.length % 2 ^ 32) (by rw [hlen]; exact Nat.mod_le _ _) fuel []
        (mt19937 iteration)
      simpa using this

/-- C8 amended, for the start point `[0, 1, 9]` in the space
`[[0, 1], [1, 2, 3]]`: the call returns the point `[1, 2, 9]`. -/
theorem oneplusone_longer_start_point_witness :
    ([0, 1] : List Int).length = ([[0, 1], [1, 2, 3]] : List (List Int)).length ∧
    oneplusone (fun _ _ => 1) 1 ([0, 1] ++ [9]) [[0, 1], [1, 2, 3]] 1 1 =
      (oneplusone (fun _ _ => 1) 1 [0, 1] [[0, 1], [1, 2, 3]] 1 1).map
        (List.map (fun p => p ++ [9])) ∧
    oneplusone (fun _ _ => 1) 1 ([0, 1] ++ [9]) [[0, 1], [1, 2, 3]] 1 1 =
      .returned [[1, 2, 9]] :=
  ⟨by decide,
    oneplusone_longer_start_point (fun _ _ => 1) 1 [0, 1] [9] [[0, 1], [1, 2, 3]] 1 1
      (by decide),
    by decide⟩

/-- C9 as stated is false: for the space `[[0, 1]]`, the start point `[0]` and
the target count 2 the failure of `oneplusone` is the assertion of line 100 on
the probability, not a report that the target count cannot be met: the call
with the target count 1, which the point `[1]` meets, fails in the same way. -/
theorem oneplusone_single_dimension_counterexample :
    (∀ fuel : Nat, oneplusone (fun _ _ => 1) (fuel + 1) [0] [[0, 1]] 2 1 =
      .failed (.assertion 100)) ∧
    (∀ fuel : Nat, oneplusone (fun _ _ => 1) (fuel + 1) [0] [[0, 1]] 1 1 =
      .failed (.assertion 100)) := by
  constructor <;> intro fuel <;> rfl

/-- C9, amended: for the space `[[0, 1]]` and the start point `[0]`,
`oneplusone` fails for every seed and every target count `k ≥ 1` (2 among
them) in the first iteration of its loop, at the assertion
`probability > 0.0 and probability < 1.0` of `is_random_event_happens` (line
100), the probability being `1 / 1`; it neither returns a set nor goes on
looping. -/
theorem oneplusone_single_dimension_fails (mt19937 : Nat → RandGen) (fuel k iteration : Nat)
    (hk : 1 ≤ k) :
    oneplusone mt19937 (fuel + 1) [0] [[0, 1]] k iteration = .failed (.assertion 100) := by
  have h0 : ¬ k = 0 := by omega
  have h1 : ([] : List (List Int)).length < k := by
    simp only [List.length_nil]
    omega
  simp only [oneplusone, List.isEmpty_cons, Bool.false_eq_true, if_false, h0,
    List.length_singleton, oneplusone_loop, h1, if_true]
  rw [show 1 % 2 ^ 32 = 1 by norm_num, select_params_one]

/-- C9 amended, at the target count 2. -/
theorem oneplusone_single_dimension_fails_witness :
    1 ≤ 2 ∧ oneplusone (fun _ _ => 1) (0 + 1) [0] [[0, 1]] 2 1 = .failed (.assertion 100) :=
  ⟨by decide, oneplusone_single_dimension_fails (fun _ _ => 1) 0 2 1 (by decide)⟩

/-- C10, at the failing input: for a domain of 34 values whose current value
is the last, `calc_weights(33, 34)` does not return a vector whose smallest
entry off position 33 is 1.  The weight of position 32 is `2 ^ 32`, as the
exact reading shows, and the assignment of `std::pow(2, 32)` to an `unsigned`
at line 48 is an undefined conversion.  As long as `max(i, n-i-1) ≤ 32` the
vector that the program returns has what the claim states: the farthest
position on the larger side of `i` has the weight 1, and no entry off
position `i` is smaller. -/
theorem calc_weights_overflow_left :
    calc_weights .uint32 33 34 = .error (.undefined 48) ∧
    (calc_weights .exact 33 34).map (fun w => (w[0]?, w[32]?)) =
      .ok (some 1, some (2 ^ 32)) ∧
    (∀ n i : Nat, 2 ≤ n → i < n → n < 2 ^ 32 → max i (n - i - 1) ≤ 32 →
      ∃ w, calc_weights .uint32 i n = .ok w ∧
        (n - i - 1 ≤ i → w[0]? = some 1) ∧ (i ≤ n - i - 1 → w[n - 1]? = some 1) ∧
        (∀ j, j < n → j ≠ i → ∃ x, w[j]? = some x ∧ 1 ≤ x)) :=
  ⟨by decide, by decide,
    fun n i hn hi hn32 hM => calc_weights_farthest .uint32 n i hn hi (fun _ => ⟨hn32, hM⟩)⟩

/-- C11, at the failing input: for a domain of 67 values whose current value
is at position 33, `calc_weights(33, 67)` does not return symmetric, halving
weights.  The two neighbours of position 33 have the weight `2 ^ 32`, as the
exact reading shows, and the assignment of `std::pow(2, 32)` to an `unsigned`
at line 48 is an undefined conversion.  In the exact reading (that of the
Python reference above the function) for every `n` and `i < n`, and on 32-bit
words as long as `max(i, n-i-1) ≤ 32`, the weights are what the claim states:
`w[i-d] = w[i+d]`; `w[j] = 2 * w[j']` for `j`, `j'` on one side of `i` with
`j'` one step farther; and a position at most as far from `i` as another has
at least its weight. -/
theorem calc_weights_relations_overflow :
    (∀ (A : Arith) (n i : Nat), i < n →
      (A = .uint32 → n < 2 ^ 32 ∧ max i (n - i - 1) ≤ 32) →
      ∃ w, calc_weights A i n = .ok w ∧
        (∀ d, 1 ≤ d → d ≤ i → i + d < n → ∃ x, w[i - d]? = some x ∧ w[i + d]? = some x) ∧
        (∀ j j1, j < n → j1 < n →
          (j < i ∧ j1 < i ∧ i - j1 = i - j + 1) ∨ (i < j ∧ i < j1 ∧ j1 - i = j - i + 1) →
          ∃ x y, w[j]? = some x ∧ w[j1]? = some y ∧ x = 2 * y) ∧
        (∀ j j1, j < n → j1 < n → j ≠ i → j1 ≠ i →
          (if j < i then i - j else j - i) ≤ (if j1 < i then i - j1 else j1 - i) →
          ∃ x y, w[j]? = some x ∧ w[j1]? = some y ∧ y ≤ x)) ∧
    calc_weights .uint32 33 67 = .error (.undefined 48) ∧
    (calc_weights .exact 33 67).map (fun w => (w[32]?, w[34]?)) =
      .ok (some (2 ^ 32), some (2 ^ 32)) :=
  ⟨fun A n i hi hfit => calc_weights_relations A n i hi hfit, by decide, by decide⟩

/-- C13 as stated is false: with fewer reachable points than the target count
the loop of `oneplusone` can stop.  For the space `[[0, 1]]`, the start point
`[0]` and the target count 2 (one reachable point) it stops in its first
iteration at the assertion of line 100; for the space `[[0], [0]]` of one-value
domains, the start point `[0, 0]` and the target count 1 (no reachable point)
it stops in the iteration that selects a position, at line 77, where the
all-zero weights of a one-value domain are handed to the distribution. -/
theorem oneplusone_terminates_counterexample :
    ((reachable_points [0] [[0, 1]]).toFinset.card < 2 ∧
      ∀ fuel : Nat, oneplusone (fun _ _ => 1) (fuel + 1) [0] [[0, 1]] 2 1 =
        .failed (.assertion 100)) ∧
    ((reachable_points [0, 0] [[0], [0]]).toFinset.card < 1 ∧
      ∀ fuel : Nat, oneplusone (fun _ _ => 1) (fuel + 1) [0, 0] [[0], [0]] 1 1 =
        .failed (.undefined 77)) := by
  refine ⟨⟨by decide, fun fuel => rfl⟩, ⟨by decide, fun fuel => rfl⟩⟩

/-- C13, amended: when the start point and the parameter space have the same
length, the entries of the domains are values of the type `int`, and the
number of distinct points reachable from the start point is smaller than the
target count `k`, then `oneplusone` never returns a set: for every seed and
after any number of iterations of its loop the call is still in the loop, or
has stopped at a failed assertion or an undefined operation. -/
theorem oneplusone_never_returns (mt19937 : Nat → RandGen) (fuel : Nat)
    (start_point : List Int) (parameters : List (List Int)) (k iteration : Nat)
    (hlen : start_point.length = parameters.length)
    (hint : ∀ d ∈ parameters, ∀ x ∈ d, is_int x)
    (hfew : (reachable_points start_point parameters).toFinset.card < k) :
    (∀ S, oneplusone mt19937 fuel start_point parameters k iteration ≠ .returned S) ∧
    (oneplusone mt19937 fuel start_point parameters k iteration = .running ∨
      ∃ f, oneplusone mt19937 fuel start_point parameters k iteration = .failed f) := by
  have hnot : ∀ S, oneplusone mt19937 fuel start_point parameters k iteration ≠
      .returned S := by
    intro S hret
    obtain ⟨h1, h2, h3⟩ := oneplusone_returned _ _ _ _ _ _ _ hret
    have hsub : S.toFinset ⊆ (reachable_points start_point parameters).toFinset := by
      intro p hp
      rw [List.mem_toFinset] at hp ⊢
      exact Candidate.mem_reachable _ _ _ hlen hint (h3 p hp)
    have hcard := Finset.card_le_card hsub
    rw [List.toFinset_card_of_nodup h2, h1] at hcard
    omega
  exact ⟨hnot, outcome_cases _ hnot⟩

/-- C13 amended, for the start point `[0, 0]` in the space `[[0, 1], [0, 1]]`,
which has three reachable points: with the target count 4 the call is still in
its loop after seven iterations, on draws for which the target count 3 is
met. -/
theorem oneplusone_never_returns_witness :
    (([0, 0] : List Int).length = ([[0, 1], [0, 1]] : List (List Int)).length ∧
      (∀ d ∈ ([[0, 1], [0, 1]] : List (List Int)), ∀ x ∈ d, is_int x) ∧
      (reachable_points [0, 0] [[0, 1], [0, 1]]).toFinset.card < 4) ∧
    (∀ S, oneplusone (fun _ k => [1, 2 ^ 52, 1, 2 ^ 52, 1, 1, 1, 1, 1, 1].getD k (2 ^ 52)) 7
      [0, 0] [[0, 1], [0, 1]] 4 1 ≠ .returned S) ∧
    oneplusone (fun _ k => [1, 2 ^ 52, 1, 2 ^ 52, 1, 1, 1, 1, 1, 1].getD k (2 ^ 52)) 7
      [0, 0] [[0, 1], [0, 1]] 4 1 = .running ∧
    oneplusone (fun _ k => [1, 2 ^ 52, 1, 2 ^ 52, 1, 1, 1, 1, 1, 1].getD k (2 ^ 52)) 7
      [0, 0] [[0, 1], [0, 1]] 3 1 = .returned [[1, 0], [0, 1], [1, 1]] :=
  ⟨⟨by decide, by decide, by decide⟩,
    (oneplusone_never_returns
      (fun _ k => [1, 2 ^ 52, 1, 2 ^ 52, 1, 1, 1, 1, 1, 1].getD k (2 ^ 52)) 7
      [0, 0] [[0, 1], [0, 1]] 4 1 (by decide) (by decide) (by decide)).1,
    by decide, by decide⟩

/-- C14: in one pass through the body of the loop of `oneplusone`, if no
position is selected (each of the `n` draws is at least `1 / n`), the set of
points is left as it is and the generator has made the `n` draws of the
selection and no other, whatever the start point and the parameter space are:
`new_param_value` is not called and the start point is not inserted.  Every
pass that completes leaves the set as it is or appends one point, which was
not in the set and is not the start point; no point is removed.  The loop runs
this body while the set has fewer points than the target count. -/
theorem loop_body_frame (start_point : List Int) (parameters : List (List Int))
    (params_num : Nat) (points : List (List Int)) (rand_gen : RandGen) :
    (2 ≤ params_num →
      (∀ i, i < params_num →
        ¬ ((⟨rand_gen i % 2 ^ 53, 2 ^ 53⟩ : Fraction) <
          (Fraction.of_unsigned 1).div (Fraction.of_unsigned params_num))) →
      select_params params_num rand_gen = .ok ([], fun k => rand_gen (k + params_num)) ∧
      loop_body start_point parameters params_num points rand_gen =
        .ok (points, fun k => rand_gen (k + params_num))) ∧
    (∀ (points1 : List (List Int)) (rand_gen1 : RandGen),
      loop_body start_point parameters params_num points rand_gen = .ok (points1, rand_gen1) →
      (points1 = points ∨
        ∃ new_point, points1 = points ++ [new_point] ∧ new_point ∉ points ∧
          new_point ≠ start_point ∧ points1.length = points.length + 1) ∧
      points.length ≤ points1.length ∧ ∀ p ∈ points, p ∈ points1) ∧
    (∀ points_to_gen fuel : Nat,
      oneplusone_loop start_point parameters points_to_gen params_num (fuel + 1) points
          rand_gen =
        if points.length < points_to_gen then
          match loop_body start_point parameters params_num points rand_gen with
          | .error f => .failed f
          | .ok (points1, rand_gen1) =>
            oneplusone_loop start_point parameters points_to_gen params_num fuel points1
              rand_gen1
        else .returned points) := by
  refine ⟨?_, ?_, ?_⟩
  · intro hn hdraws
    have hsel := select_params_none params_num hn rand_gen hdraws
    refine ⟨hsel, ?_⟩
    unfold loop_body
    rw [hsel]
    rfl
  · intro points1 rand_gen1 h
    rcases loop_body_ok _ _ _ _ _ _ _ h with e | ⟨new_point, e, hnew, hcand⟩
    · subst e
      exact ⟨Or.inl rfl, le_refl _, fun p hp => hp⟩
    · subst e
      refine ⟨Or.inr ⟨new_point, rfl, hnew, Candidate.is_not_start _ _ _ hcand, by simp⟩, by simp,
        fun p hp => List.mem_append_left _ hp⟩
  · intro points_to_gen fuel
    exact oneplusone_loop_succ _ _ _ _ _ _ _

/-- C14, for the start point `[0, 1]` in the space `[[0, 1], [1, 2, 3]]`: draws
of `1/2` select nothing and leave the set `[1, 2]` as it is; draws that build
the candidate `[1, 2]` leave the set `[1, 2]` as it is and add to the set
`[1, 1]`. -/
theorem loop_body_frame_witness :
    (2 ≤ 2 ∧
      (∀ i, i < 2 →
        ¬ ((⟨(fun _ => 2 ^ 52 : RandGen) i % 2 ^ 53, 2 ^ 53⟩ : Fraction) <
          (Fraction.of_unsigned 1).div (Fraction.of_unsigned 2)))) ∧
    loop_body [0, 1] [[0, 1], [1, 2, 3]] 2 [[1, 2]] (fun _ => 2 ^ 52) =
      .ok ([[1, 2]], fun k => (fun _ => 2 ^ 52 : RandGen) (k + 2)) ∧
    (loop_body [0, 1] [[0, 1], [1, 2, 3]] 2 [[1, 2]] (fun _ => 1)).map (fun r => r.1) =
      .ok [[1, 2]] ∧
    (loop_body [0, 1] [[0, 1], [1, 2, 3]] 2 [[1, 1]] (fun _ => 1)).map (fun r => r.1) =
      .ok [[1, 1], [1, 2]] :=
  ⟨⟨by decide, by decide⟩,
    ((loop_body_frame [0, 1] [[0, 1], [1, 2, 3]] 2 [[1, 2]] (fun _ => 2 ^ 52)).1
      (by decide) (by decide)).2,
    by decide, by decide⟩

/-- C15: when the parameter space has one dimension, `oneplusone` never
returns a set, for every start point, domain, target count `k ≥ 1` and seed:
with a non-empty start point the first iteration fails at the assertion of line
100, since the first call `is_random_event_happens(rand_gen, 1/1)` fails there,
in the selection of positions and so before a candidate is built.  For every
`n ≥ 2` the probability `1 / n` satisfies `0 < 1/n < 1`, the call
`is_random_event_happens(rand_gen, 1/n)` returns, and so does the selection of
positions. -/
theorem single_dimension_assertion (mt19937 : Nat → RandGen) (fuel : Nat)
    (start_point domain : List Int) (k iteration : Nat) (hk : 1 ≤ k) :
    (∀ S, oneplusone mt19937 fuel start_point [domain] k iteration ≠ .returned S) ∧
    (start_point ≠ [] →
      oneplusone mt19937 (fuel + 1) start_point [domain] k iteration =
        .failed (.assertion 100)) ∧
    (∀ rand_gen : RandGen,
      is_random_event_happens rand_gen
        ((Fraction.of_unsigned 1).div (Fraction.of_unsigned 1)) = .error (.assertion 100) ∧
      select_params 1 rand_gen = .error (.assertion 100) ∧
      ∀ points, loop_body start_point [domain] 1 points rand_gen =
        .error (.assertion 100)) ∧
    (∀ n : Nat, 2 ≤ n →
      Fraction.of_unsigned 0 < (Fraction.of_unsigned 1).div (Fraction.of_unsigned n) ∧
      (Fraction.of_unsigned 1).div (Fraction.of_unsigned n) < Fraction.of_unsigned 1 ∧
      ∀ rand_gen : RandGen,
        (∃ b, is_random_event_happens rand_gen
          ((Fraction.of_unsigned 1).div (Fraction.of_unsigned n)) =
            .ok (b, rand_gen.advance)) ∧
        ∃ indices, select_params n rand_gen = .ok (indices, fun j => rand_gen (j + n))) := by
  have hk0 : ¬ k = 0 := by omega
  have hfail : start_point ≠ [] →
      oneplusone mt19937 (fuel + 1) start_point [domain] k iteration =
        .failed (.assertion 100) := by
    intro hs
    have hs1 : start_point.isEmpty = false := by
      cases start_point with
      | nil => exact absurd rfl hs
      | cons a b => rfl
    have h1 : ([] : List (List Int)).length < k := by
      simp only [List.length_nil]
      omega
    simp only [oneplusone, List.isEmpty_cons, Bool.false_eq_true, if_false, hk0, hs1,
      List.length_singleton, oneplusone_loop, h1, if_true]
    rw [show 1 % 2 ^ 32 = 1 by norm_num, select_params_one]
  refine ⟨?_, hfail, ?_, ?_⟩
  · intro S hret
    unfold oneplusone at hret
    by_cases hs : start_point.isEmpty = true
    · simp [hs] at hret
    · have hs1 : start_point.isEmpty = false := by simpa using hs
      have h1 : ([] : List (List Int)).length < k := by
        simp only [List.length_nil]
        omega
      cases fuel with
      | zero =>
        have h2 : 0 < k := by omega
        simp [hs1, hk0, oneplusone_loop, h2] at hret
      | succ fuel =>
        simp only [List.isEmpty_cons, Bool.false_eq_true, if_false, hk0, hs1,
          List.length_singleton, oneplusone_loop, h1, if_true] at hret
        rw [show 1 % 2 ^ 32 = 1 by norm_num, select_params_one] at hret
        cases hret
  · intro rand_gen
    refine ⟨rfl, select_params_one rand_gen, fun points => ?_⟩
    unfold loop_body
    rw [select_params_one]
  · intro n hn
    obtain ⟨h1, h2⟩ := probability_in_range n hn
    refine ⟨h1, h2, fun rand_gen => ⟨⟨_, is_random_event_happens_eq _ _ ⟨h1, h2⟩⟩,
      select_params_succeeds n hn rand_gen⟩⟩

/-- C15, for the start point `[5]`, the domain `[5, 6, 7]` and the target
count 3. -/
theorem single_dimension_assertion_witness :
    1 ≤ 3 ∧ ([5] : List Int) ≠ [] ∧
    oneplusone (fun _ _ => 1) (0 + 1) [5] [[5, 6, 7]] 3 1 = .failed (.assertion 100) :=
  ⟨by decide, by decide,
    (single_dimension_assertion (fun _ _ => 1) 0 [5] [5, 6, 7] 3 1 (by decide)).2.1
      (by decide)⟩

/-- C16: in `calc_weights` on 32-bit words, for every `indx < arraysize`, the
difference `arraysize - indx - 1` and the exponents `max_distance-1 - i` of the
left loop and `max_distance-1 - (i - indx - 1)` of the right loop are the exact
integer differences, which are not negative, the index `indx - i - 1` that the
left loop writes is below `arraysize` (the right loop writes `i < arraysize`),
and `indx + 1` does not wrap.  For every `arraysize ≤ 33` the function returns
the weights `2 ^ (max_distance - d)` of the exact reading, each below
`2 ^ 32`. -/
theorem calc_weights_no_wrap (indx arraysize : Nat) (hi : indx < arraysize)
    (hn : arraysize < 2 ^ 32) :
    ((Arith.sub .uint32 (Arith.sub .uint32 arraysize indx) 1 : Nat) : Int) =
      (arraysize : Int) - indx - 1 ∧
    Arith.succ .uint32 indx = indx + 1 ∧
    (∀ i, i < indx →
      ((Arith.sub .uint32 (Arith.sub .uint32
          (max indx (Arith.sub .uint32 (Arith.sub .uint32 arraysize indx) 1)) 1) i : Nat) : Int) =
        ((max indx (arraysize - indx - 1) : Nat) : Int) - 1 - i ∧
      ((Arith.sub .uint32 (Arith.sub .uint32 indx i) 1 : Nat) : Int) = (indx : Int) - i - 1 ∧
      Arith.sub .uint32 (Arith.sub .uint32 indx i) 1 < arraysize) ∧
    (∀ i, Arith.succ .uint32 indx ≤ i → i < arraysize →
      ((Arith.sub .uint32 (Arith.sub .uint32 i indx) 1 : Nat) : Int) = (i : Int) - indx - 1 ∧
      ((Arith.sub .uint32 (Arith.sub .uint32
          (max indx (Arith.sub .uint32 (Arith.sub .uint32 arraysize indx) 1)) 1)
          (Arith.sub .uint32 (Arith.sub .uint32 i indx) 1) : Nat) : Int) =
        ((max indx (arraysize - indx - 1) : Nat) : Int) - 1 - ((i : Int) - indx - 1)) ∧
    (arraysize ≤ 33 →
      calc_weights .uint32 indx arraysize =
        .ok ((List.range arraysize).map (spec_weight indx arraysize)) ∧
      calc_weights .uint32 indx arraysize = calc_weights .exact indx arraysize ∧
      ∀ j, j < arraysize →
        spec_weight indx arraysize j < 2 ^ 32 ∧
        (j ≠ indx → spec_weight indx arraysize j =
          2 ^ (max indx (arraysize - indx - 1) - (if j < indx then indx - j else j - indx)))) := by
  have hr : Arith.sub .uint32 (Arith.sub .uint32 arraysize indx) 1 = arraysize - indx - 1 := by
    simp only [Arith.sub]
    omega
  refine ⟨?_, ?_, ?_, ?_, ?_⟩
  · rw [hr]
    omega
  · simp only [Arith.succ]
    omega
  · intro i hlt
    rw [hr]
    simp only [Arith.sub]
    omega
  · intro i h1 h2
    rw [hr]
    simp only [Arith.sub, Arith.succ] at h1 ⊢
    omega
  · intro h33
    have hM : max indx (arraysize - indx - 1) ≤ 32 := by omega
    refine ⟨calc_weights_eq .uint32 indx arraysize hi (fun _ => ⟨hn, hM⟩), ?_, ?_⟩
    · rw [calc_weights_eq .uint32 indx arraysize hi (fun _ => ⟨hn, hM⟩),
        calc_weights_eq .exact indx arraysize hi (fun h => by cases h)]
    · intro j _
      refine ⟨spec_weight_lt indx arraysize j hM, fun hji => ?_⟩
      simp only [spec_weight, hji, if_false]

/-- C16, for `indx = 0` and `arraysize = 33`: the largest weight is `2 ^ 31`. -/
theorem calc_weights_no_wrap_witness :
    (0 < 33 ∧ 33 < 2 ^ 32) ∧
    calc_weights .uint32 0 33 = calc_weights .exact 0 33 ∧
    (calc_weights .uint32 0 33).map (fun w => w[1]?) = .ok (some (2 ^ 31)) :=
  ⟨⟨by decide, by decide⟩,
    ((calc_weights_no_wrap 0 33 (by decide) (by decide)).2.2.2.2 (by decide)).2.1,
    by decide⟩

/-- C17: for a domain of pairwise distinct values of the type `int`, negative
ones among them, and a start value at position `k` of it, the search for the
start value converted to `unsigned` finds the position `k`; every entry
converted to `unsigned` and back is itself; and the value that
`new_param_value` returns, converted to the `int` that is stored in the
candidate point, is the entry of the domain at the drawn index, and is not the
start value. -/
theorem conversions_lossless (param : List Int) (k : Nat) (hk : k < param.length)
    (hdistinct : param.Nodup) (hint : ∀ x ∈ param, is_int x) :
    param.findIdx (fun x => decide (to_unsigned x = to_unsigned param[k])) = k ∧
    (∀ j (hj : j < param.length), to_int (to_unsigned param[j]) = param[j]) ∧
    (∀ (rand_gen rand_gen1 : RandGen) (new_val : Nat),
      new_param_value (to_unsigned param[k]) param rand_gen = .ok (new_val, rand_gen1) →
      ∃ weights, calc_weights .uint32 (k % 2 ^ 32) (param.length % 2 ^ 32) = .ok weights ∧
        param[rand_gen 0 % weights.length]? = some (to_int new_val) ∧
        to_int new_val ≠ param[k]) := by
  have hfind := findIdx_to_unsigned param k hk hdistinct hint
  refine ⟨hfind, fun j hj => to_int_to_unsigned _ (hint _ (List.getElem_mem hj)), ?_⟩
  intro rand_gen rand_gen1 new_val h
  obtain ⟨weights, x, _, hw, _, _, hx, hxv, hv, _⟩ := (new_param_value_ok_iff _ _ _ _ _).1 h
  rw [hfind] at hw
  have hmem : x ∈ param := List.mem_iff_getElem?.2 ⟨_, hx⟩
  have hback : to_int new_val = x := by
    rw [← hxv]
    exact to_int_to_unsigned x (hint x hmem)
  refine ⟨weights, hw, by rw [hback]; exact hx, ?_⟩
  intro e
  apply hv
  rw [← hxv, ← hback, e]

/-- C17, for the domain `[-1, 5, -7]` and the start value `-7` at position 2:
the draw of index 0 stores `-1`. -/
theorem conversions_lossless_witness :
    (2 < ([-1, 5, -7] : List Int).length ∧ ([-1, 5, -7] : List Int).Nodup ∧
      (∀ x ∈ ([-1, 5, -7] : List Int), is_int x)) ∧
    ([-1, 5, -7] : List Int).findIdx (fun x => decide (to_unsigned x = to_unsigned (-7))) = 2 ∧
    new_param_value (to_unsigned (-7)) [-1, 5, -7] (fun _ => 0) =
      .ok (4294967295, RandGen.advance (fun _ => 0)) ∧
    to_int 4294967295 = -1 :=
  ⟨⟨by decide, by decide, by decide⟩,
    (conversions_lossless [-1, 5, -7] 2 (by decide) (by decide) (by decide)).1,
    by rfl, by decide⟩

end OnePlusOne
